import Mathlib

/-!
Shallow embedding of the Lumina compiler core (lexer, parser, type checker,
code generator) translated from the TypeScript sources, together with
theorems settling the frozen claims about the natural-language spec.

Machine strings are Lean `String`s, source text is processed as `List Char`,
JavaScript `Map`s are modelled as insertion-ordered association lists, and
the only nondeterminism in the code (`Math.random()` inside
`CodeGenerator.genUIElement`) is modelled as an ambient stream of
five-character names supplied as an explicit argument.
-/

namespace Lumina

/-- Token kinds, from `src/types.ts` (`enum TokenType`).  The `str` function
below records each kind's string value, used verbatim in parser error
messages (TypeScript stringifies the enum value). -/
inductive TokenType where
  | Number | String | Boolean | Identifier
  | Let | Var | Fn | Return | If | Else | For | In
  | Component | State | Effect | Style | Emit | On
  | Import | Export | From | True | False | Null
  | Plus | Minus | Star | Slash | Percent | Assign
  | Equals | NotEquals | LessThan | GreaterThan | LessEqual | GreaterEqual
  | And | Or | Not | Arrow | Dot | DotDot | Pipe
  | LeftParen | RightParen | LeftBrace | RightBrace
  | LeftBracket | RightBracket | Comma | Colon | Semicolon | At | Hash
  | Interpolation | EOF | Newline
  deriving DecidableEq, Repr

/-- String value of each token kind (the TypeScript enum member values). -/
def tokenTypeStr : TokenType → String
  | .Number => "Number" | .String => "String" | .Boolean => "Boolean"
  | .Identifier => "Identifier"
  | .Let => "let" | .Var => "var" | .Fn => "fn" | .Return => "return"
  | .If => "if" | .Else => "else" | .For => "for" | .In => "in"
  | .Component => "component" | .State => "state" | .Effect => "effect"
  | .Style => "style" | .Emit => "emit" | .On => "on"
  | .Import => "import" | .Export => "export" | .From => "from"
  | .True => "true" | .False => "false" | .Null => "null"
  | .Plus => "+" | .Minus => "-" | .Star => "*" | .Slash => "/"
  | .Percent => "%" | .Assign => "=" | .Equals => "==" | .NotEquals => "!="
  | .LessThan => "<" | .GreaterThan => ">" | .LessEqual => "<=" | .GreaterEqual => ">="
  | .And => "&&" | .Or => "||" | .Not => "!" | .Arrow => "=>"
  | .Dot => "." | .DotDot => ".." | .Pipe => "|>"
  | .LeftParen => "(" | .RightParen => ")"
  | .LeftBrace => "\x7b" | .RightBrace => "\x7d"
  | .LeftBracket => "[" | .RightBracket => "]"
  | .Comma => "," | .Colon => ":" | .Semicolon => ";" | .At => "@" | .Hash => "#"
  | .Interpolation => "$\x7b" | .EOF => "EOF" | .Newline => "Newline"

/-- `interface Token` from `src/types.ts`. -/
structure Token where
  type : TokenType
  value : String
  line : Nat
  column : Nat
  deriving DecidableEq, Repr

-- ── Lexer (`src/lexer/index.ts`) ─────────────────────────────────────────

/-- `Lexer.isDigit`. -/
def isDigit (c : Char) : Bool := '0' ≤ c && c ≤ '9'

/-- `Lexer.isAlpha` (underscore counts as alphabetic, as in the source). -/
def isAlpha (c : Char) : Bool :=
  ('a' ≤ c && c ≤ 'z') || ('A' ≤ c && c ≤ 'Z') || c = '_'

/-- `Lexer.isAlphaNumeric`. -/
def isAlphaNumeric (c : Char) : Bool := isAlpha c || isDigit c

/-- The `KEYWORDS` table. -/
def keywordType (w : String) : TokenType :=
  if w = "let" then .Let else if w = "var" then .Var
  else if w = "fn" then .Fn else if w = "return" then .Return
  else if w = "if" then .If else if w = "else" then .Else
  else if w = "for" then .For else if w = "in" then .In
  else if w = "component" then .Component else if w = "state" then .State
  else if w = "effect" then .Effect else if w = "style" then .Style
  else if w = "emit" then .Emit else if w = "on" then .On
  else if w = "import" then .Import else if w = "export" then .Export
  else if w = "from" then .From else if w = "true" then .True
  else if w = "false" then .False else if w = "null" then .Null
  else .Identifier

/-- Split a char list at the first char failing `p` (used for
`readNumber`/`readIdentifier`, which advance while the class matches). -/
def splitWhile (p : Char → Bool) : List Char → List Char × List Char
  | [] => ([], [])
  | c :: r =>
    if p c then
      let (a, b) := splitWhile p r
      (c :: a, b)
    else ([], c :: r)

/-- `Lexer.skipWhitespace`: discard spaces, tabs and carriage returns,
advancing the column. -/
def skipWhitespace : List Char → Nat → List Char × Nat
  | [], col => ([], col)
  | c :: r, col =>
    if c = ' ' || c = '\t' || c = '\r' then skipWhitespace r (col + 1)
    else (c :: r, col)

/-- `Lexer.skipLineComment`: advance until a line feed (not consumed). -/
def skipLineComment : List Char → Nat → List Char × Nat
  | [], col => ([], col)
  | c :: r, col =>
    if c = '\n' then (c :: r, col) else skipLineComment r (col + 1)

/-- Loop of `Lexer.skipBlockComment` (after the opening `/*` was consumed):
runs while at least two characters remain; a line feed bumps the line and
resets the column to 0 before the next advance. -/
def blockLoop : List Char → Nat → Nat → Except String (List Char × Nat × Nat)
  | c1 :: c2 :: r, line, col =>
    let line1 := if c1 = '\n' then line + 1 else line
    let col1 := if c1 = '\n' then 0 else col
    if c1 = '*' && c2 = '/' then .ok (r, line1, col1 + 2)
    else blockLoop (c2 :: r) line1 (col1 + 1)
  | _, line, _ => .error ("Unterminated block comment at line " ++ toString line)

/-- Loop of `Lexer.readString` (after the opening quote): handles the fixed
escape set and tracks line feeds inside the literal.  A trailing backslash
still ends in the unterminated-string error, as in the source. -/
def strLoop : List Char → List Char → Nat → Nat →
    Except String (String × List Char × Nat × Nat)
  | [], _, line, _ => .error ("Unterminated string at line " ++ toString line)
  | '"' :: r, acc, line, col => .ok (String.mk acc.reverse, r, line, col + 1)
  | '\\' :: r, acc, line, col =>
    match r with
    | [] => .error ("Unterminated string at line " ++ toString line)
    | c :: r2 =>
      let e := if c = 'n' then '\n' else if c = 't' then '\t'
        else if c = '\\' then '\\' else if c = '"' then '"' else c
      strLoop r2 (e :: acc) line (col + 2)
  | '\n' :: r, acc, line, _ => strLoop r ('\n' :: acc) (line + 1) 1
  | c :: r, acc, line, col => strLoop r (c :: acc) line (col + 1)

/-- Loop of `Lexer.readTemplateString` (after the opening backquote):
raw, no escape processing. -/
def templLoop : List Char → List Char → Nat → Nat →
    Except String (String × List Char × Nat × Nat)
  | [], _, line, _ =>
    .error ("Unterminated template string at line " ++ toString line)
  | '\u0060' :: r, acc, line, col => .ok (String.mk acc.reverse, r, line, col + 1)
  | '\n' :: r, acc, line, _ => templLoop r ('\n' :: acc) (line + 1) 1
  | c :: r, acc, line, col => templLoop r (c :: acc) line (col + 1)

theorem splitWhile_snd_length_le (p : Char → Bool) :
    ∀ r : List Char, (splitWhile p r).2.length ≤ r.length := by
  intro r
  induction r with
  | nil => simp [splitWhile]
  | cons c r ih =>
    simp only [splitWhile]
    split
    · simpa using Nat.le_trans ih (Nat.le_succ _)
    · simp

theorem splitWhile_snd_length_lt (p : Char → Bool) (c : Char) (r : List Char)
    (h : p c = true) :
    (splitWhile p (c :: r)).2.length < (c :: r).length := by
  simp only [splitWhile, h, if_true]
  exact Nat.lt_succ_of_le (splitWhile_snd_length_le p r)

theorem skipWhitespace_length_le :
    ∀ (r : List Char) (col : Nat),
      (skipWhitespace r col).1.length ≤ r.length := by
  intro r
  induction r with
  | nil => intro col; simp [skipWhitespace]
  | cons c r ih =>
    intro col
    simp only [skipWhitespace]
    split
    · exact Nat.le_trans (ih (col + 1)) (Nat.le_succ _)
    · simp

theorem skipLineComment_length_le :
    ∀ (r : List Char) (col : Nat),
      (skipLineComment r col).1.length ≤ r.length := by
  intro r
  induction r with
  | nil => intro col; simp [skipLineComment]
  | cons c r ih =>
    intro col
    simp only [skipLineComment]
    split
    · simp
    · exact Nat.le_trans (ih (col + 1)) (Nat.le_succ _)

theorem blockLoop_length_le :
    ∀ (r : List Char) (line col : Nat) (out : List Char × Nat × Nat),
      blockLoop r line col = .ok out → out.1.length ≤ r.length := by
  intro r
  induction r with
  | nil => intro line col out h; simp [blockLoop] at h
  | cons c1 r ih =>
    intro line col out h
    match r with
    | [] => simp [blockLoop] at h
    | c2 :: r2 =>
      simp only [blockLoop] at h
      split at h
      · cases h
        simp
        omega
      · have := ih _ _ out h
        simpa using Nat.le_trans this (by simp)

theorem strLoop_length_le :
    ∀ (r acc : List Char) (line col : Nat) (out : String × List Char × Nat × Nat),
      strLoop r acc line col = .ok out → out.2.1.length ≤ r.length := by
  intro r acc line col
  induction r, acc, line, col using strLoop.induct with
  | case1 x line x1 => intro out h; simp [strLoop] at h
  | case2 r acc line col => intro out h; simp only [strLoop] at h; cases h; simp
  | case3 acc line col => intro out h; simp [strLoop] at h
  | case4 acc line col c r2 e ih =>
    intro out h
    simp only [strLoop] at h
    have := ih out h
    simp only [List.length_cons]
    omega
  | case5 r acc line x ih =>
    intro out h
    simp only [strLoop] at h
    have := ih out h
    simp only [List.length_cons]
    omega
  | case6 c r acc line col h1 h2 h3 ih =>
    intro out h
    rw [strLoop.eq_def] at h
    simp only [] at h
    have := ih out h
    simp only [List.length_cons]
    omega

theorem templLoop_length_le :
    ∀ (r acc : List Char) (line col : Nat) (out : String × List Char × Nat × Nat),
      templLoop r acc line col = .ok out → out.2.1.length ≤ r.length := by
  intro r acc line col
  induction r, acc, line, col using templLoop.induct with
  | case1 x line x1 => intro out h; simp [templLoop] at h
  | case2 r acc line col => intro out h; simp only [templLoop] at h; cases h; simp
  | case3 r acc line x ih =>
    intro out h
    simp only [templLoop] at h
    have := ih out h
    simp only [List.length_cons]
    omega
  | case4 c r acc line col h1 h2 ih =>
    intro out h
    rw [templLoop.eq_def] at h
    simp only [] at h
    have := ih out h
    simp only [List.length_cons]
    omega

/-- `Lexer.readNumber`: digits with an optional single fractional part
(`digits(.digits)?`); returns the literal text, the rest of the input and
the number of characters consumed (the column advance). -/
def readNumber (r : List Char) : String × List Char × Nat :=
  let (d1, r1) := splitWhile isDigit r
  match r1 with
  | '.' :: c2 :: r2 =>
    if isDigit c2 then
      let (d2, r3) := splitWhile isDigit (c2 :: r2)
      (String.mk (d1 ++ '.' :: d2), r3, d1.length + 1 + d2.length)
    else (String.mk d1, '.' :: c2 :: r2, d1.length)
  | _ => (String.mk d1, r1, d1.length)

theorem readNumber_snd_length_lt (c : Char) (r : List Char)
    (h : isDigit c = true) :
    (readNumber (c :: r)).2.1.length < (c :: r).length := by
  have hsw := splitWhile_snd_length_lt isDigit c r h
  simp only [readNumber]
  split
  · next c2 r2 heq =>
    rw [heq] at hsw
    split
    · have h1 := splitWhile_snd_length_le isDigit (c2 :: r2)
      simp only [List.length_cons] at h1 hsw ⊢
      omega
    · simpa using hsw
  · simpa using hsw

/-- The single-character `switch` at the end of `Lexer.tokenize`'s loop:
the token kind and literal text for one operator/delimiter character, or
`none` when the character is unrecognized (the `default:` throw).  Note
`?` is emitted as an `Identifier` token. -/
def singleTok : Char → Option (TokenType × String)
  | '+' => some (.Plus, "+")
  | '-' => some (.Minus, "-")
  | '*' => some (.Star, "*")
  | '/' => some (.Slash, "/")
  | '%' => some (.Percent, "%")
  | '=' => some (.Assign, "=")
  | '<' => some (.LessThan, "<")
  | '>' => some (.GreaterThan, ">")
  | '!' => some (.Not, "!")
  | '(' => some (.LeftParen, "(")
  | ')' => some (.RightParen, ")")
  | '\x7b' => some (.LeftBrace, "\x7b")
  | '\x7d' => some (.RightBrace, "\x7d")
  | '[' => some (.LeftBracket, "[")
  | ']' => some (.RightBracket, "]")
  | ',' => some (.Comma, ",")
  | ':' => some (.Colon, ":")
  | ';' => some (.Semicolon, ";")
  | '.' => some (.Dot, ".")
  | '@' => some (.At, "@")
  | '#' => some (.Hash, "#")
  | '?' => some (.Identifier, "?")
  | _ => none

/-- The `while` loop of `Lexer.tokenize`, with a fuel parameter to make the
recursion structural (each iteration strictly consumes at least one input
character, so `tokenize`'s fuel of `length + 1` is always enough).
Emits the trailing `EOF` token when the input runs out.  Branch
order follows the source: line feed, comments, number, quoted string,
template string, identifier/keyword, two-character operators (in the
source's `matchTwo` order), then single characters. -/
def lexLoop : Nat → List Char → Nat → Nat → Except String (List Token)
  | 0, _, _, _ => .error "out of fuel"
  | fuel + 1, r, line, col =>
    match skipWhitespace r col with
    | ([], col1) => .ok [⟨.EOF, "", line, col1⟩]
    | (ch :: rest, col1) =>
      let p := rest.head?
      if ch = '\n' then
        (lexLoop fuel rest (line + 1) 1).map (⟨.Newline, "\\n", line, col1⟩ :: ·)
      else if ch = '/' ∧ p = some '/' then
        let (r2, col2) := skipLineComment (ch :: rest) col1
        lexLoop fuel r2 line col2
      else if ch = '/' ∧ p = some '*' then
        match blockLoop rest.tail line (col1 + 2) with
        | .error e => .error e
        | .ok (r2, line2, col2) => lexLoop fuel r2 line2 col2
      else if isDigit ch then
        let (v, r2, n) := readNumber (ch :: rest)
        (lexLoop fuel r2 line (col1 + n)).map (⟨.Number, v, line, col1 + n⟩ :: ·)
      else if ch = '"' then
        match strLoop rest [] line (col1 + 1) with
        | .error e => .error e
        | .ok (v, r2, line2, col2) =>
          (lexLoop fuel r2 line2 col2).map (⟨.String, v, line2, col2⟩ :: ·)
      else if ch = '\u0060' then
        match templLoop rest [] line (col1 + 1) with
        | .error e => .error e
        | .ok (v, r2, line2, col2) =>
          (lexLoop fuel r2 line2 col2).map (⟨.String, v, line2, col2⟩ :: ·)
      else if isAlpha ch then
        let (w, r2) := splitWhile isAlphaNumeric (ch :: rest)
        (lexLoop fuel r2 line (col1 + w.length)).map
          (⟨keywordType (String.mk w), String.mk w, line, col1 + w.length⟩ :: ·)
      else if ch = '|' ∧ p = some '>' then
        (lexLoop fuel rest.tail line (col1 + 2)).map (⟨.Pipe, "|>", line, col1⟩ :: ·)
      else if ch = '=' ∧ p = some '>' then
        (lexLoop fuel rest.tail line (col1 + 2)).map (⟨.Arrow, "=>", line, col1⟩ :: ·)
      else if ch = '=' ∧ p = some '=' then
        (lexLoop fuel rest.tail line (col1 + 2)).map (⟨.Equals, "==", line, col1⟩ :: ·)
      else if ch = '!' ∧ p = some '=' then
        (lexLoop fuel rest.tail line (col1 + 2)).map (⟨.NotEquals, "!=", line, col1⟩ :: ·)
      else if ch = '<' ∧ p = some '=' then
        (lexLoop fuel rest.tail line (col1 + 2)).map (⟨.LessEqual, "<=", line, col1⟩ :: ·)
      else if ch = '>' ∧ p = some '=' then
        (lexLoop fuel rest.tail line (col1 + 2)).map
          (⟨.GreaterEqual, ">=", line, col1⟩ :: ·)
      else if ch = '&' ∧ p = some '&' then
        (lexLoop fuel rest.tail line (col1 + 2)).map (⟨.And, "&&", line, col1⟩ :: ·)
      else if ch = '|' ∧ p = some '|' then
        (lexLoop fuel rest.tail line (col1 + 2)).map (⟨.Or, "||", line, col1⟩ :: ·)
      else if ch = '.' ∧ p = some '.' then
        (lexLoop fuel rest.tail line (col1 + 2)).map (⟨.DotDot, "..", line, col1⟩ :: ·)
      else
        match singleTok ch with
        | some (ty, v) =>
          (lexLoop fuel rest line (col1 + 1)).map (⟨ty, v, line, col1⟩ :: ·)
        | none =>
          .error ("Unexpected character '" ++ String.mk [ch] ++ "' at line " ++
            toString line ++ ", column " ++ toString col1)

/-- `Lexer.filterNewlines`'s loop: `acc` is the `result` array in reverse.
A `Newline` is dropped after another `Newline` or after an opening
delimiter, comma or semicolon; a `Newline` is popped back off when the
next token is a closing delimiter or `else`. -/
def filterNewlinesGo : List Token → List Token → List Token
  | acc, [] => acc.reverse
  | acc, t :: rest =>
    if t.type = .Newline then
      match acc with
      | [] => filterNewlinesGo [t] rest
      | pt :: _ =>
        if pt.type = .Newline then filterNewlinesGo acc rest
        else if pt.type = .LeftBrace ∨ pt.type = .LeftParen ∨
            pt.type = .LeftBracket ∨ pt.type = .Comma ∨
            pt.type = .Semicolon then
          filterNewlinesGo acc rest
        else filterNewlinesGo (t :: acc) rest
    else
      match acc with
      | pt :: accTail =>
        if pt.type = .Newline ∧ (t.type = .RightBrace ∨ t.type = .RightParen ∨
            t.type = .RightBracket ∨ t.type = .Else) then
          filterNewlinesGo (t :: accTail) rest
        else filterNewlinesGo (t :: pt :: accTail) rest
      | [] => filterNewlinesGo [t] rest

/-- `Lexer.filterNewlines`. -/
def filterNewlines (ts : List Token) : List Token := filterNewlinesGo [] ts

deriving instance DecidableEq for Except

/-- `Lexer.tokenize`: run the main loop from line 1, column 1, then prune
`Newline` tokens.  A thrown lexer error is the `Except.error` case. -/
def tokenize (s : String) : Except String (List Token) :=
  (lexLoop (s.data.length + 1) s.data 1 1).map filterNewlines

-- ── AST (`src/types.ts`) ─────────────────────────────────────────────────

/-- The AST node union from `src/types.ts`, as one nested inductive.
`Param` is embedded as `name × optional type text × optional default`;
`UIAttribute` as `name × optional value`; object/style/prop entries as
`key × value` pairs; `ArrowFunction`'s `ASTNode[] | ASTNode` body as a sum.
A `NumberLiteral` keeps the literal text, since IEEE floats are not
shallowly embeddable: the source stores `parseFloat(text)` and the
generator re-emits `String(value)`, which agrees with the kept text on
canonical literals such as `1`, `1.5` or `42` but differs on
non-canonical ones such as `1.50` or `007` — no theorem below depends on
a non-canonical literal; `MemberExpr`'s `index` (attached only when
`computed` is true in the source) is an optional field.  `ExportDecl`
carries the wrapped declaration, as the parser actually produces. -/
inductive ASTNode where
  | program (body : List ASTNode)
  | componentDecl (name : String) (params : List (String × Option String × Option ASTNode))
      (body : List ASTNode)
  | functionDecl (name : String) (params : List (String × Option String × Option ASTNode))
      (returnType : Option String) (body : List ASTNode)
  | variableDecl (name : String) (mutable : Bool) (typeAnn : Option String)
      (value : ASTNode)
  | stateDecl (name : String) (typeAnn : Option String) (value : ASTNode)
  | effectDecl (dependencies : List String) (body : List ASTNode)
  | styleDecl (name : Option String) (properties : List (String × ASTNode))
  | returnStatement (value : Option ASTNode)
  | ifStatement (condition : ASTNode) (consequent : List ASTNode)
      (alternate : Option (List ASTNode))
  | forStatement (varName : String) (iterable : ASTNode) (body : List ASTNode)
  | expressionStatement (expression : ASTNode)
  | blockStatement (body : List ASTNode)
  | uiElement (tag : String) (attributes : List (String × Option ASTNode))
      (children : List ASTNode) (selfClosing : Bool)
  | uiText (value : String)
  | uiExpression (expression : ASTNode)
  | componentInstance (name : String) (props : List (String × ASTNode))
      (children : List ASTNode) (selfClosing : Bool)
  | binaryExpr (operator : String) (left right : ASTNode)
  | unaryExpr (operator : String) (operand : ASTNode)
  | callExpr (callee : ASTNode) (arguments : List ASTNode)
  | memberExpr (object : ASTNode) (property : String) (computed : Bool)
      (index : Option ASTNode)
  | assignExpr (target value : ASTNode)
  | arrowFunction (params : List (String × Option String × Option ASTNode))
      (body : List ASTNode ⊕ ASTNode)
  | arrayLiteral (elements : List ASTNode)
  | objectLiteral (properties : List (String × ASTNode))
  | identifier (name : String)
  | numberLiteral (value : String)
  | stringLiteral (value : String)
  | booleanLiteral (value : Bool)
  | nullLiteral
  | templateLiteral (parts : List (String ⊕ ASTNode))
  | conditionalExpr (condition consequent alternate : ASTNode)
  | pipeExpr (left right : ASTNode)
  | importDecl (specifiers : List String) (source : String)
  | exportDecl (declaration : ASTNode)
  | eventHandler (event : String) (handler : ASTNode)

-- ── Parser (`src/parser/index.ts`) ───────────────────────────────────────

/-- Out-of-range token access yields the `EOF` sentinel (the token list
produced by the lexer always ends in one). -/
def tokAt (toks : List Token) (pos : Nat) : Token :=
  toks.getD pos ⟨.EOF, "", 0, 0⟩

/-- `Parser.isAtEnd`. -/
def isAtEnd (toks : List Token) (pos : Nat) : Bool :=
  pos ≥ toks.length || (tokAt toks pos).type = .EOF

/-- `Parser.check`. -/
def checkTok (toks : List Token) (pos : Nat) (ty : TokenType) : Bool :=
  !isAtEnd toks pos && (tokAt toks pos).type = ty

/-- `Parser.error`: prefix the message and add the offending token's
line/column (clamped to the last token). -/
def parseErr (toks : List Token) (pos : Nat) (msg : String) : String :=
  let t := tokAt toks (min pos (toks.length - 1))
  "[Parse Error] " ++ msg ++ " at line " ++ toString t.line ++ ", col " ++
    toString t.column

/-- `Parser.expect`: consume a token of the given kind or fail. -/
def expect (toks : List Token) (pos : Nat) (ty : TokenType) :
    Except String (Token × Nat) :=
  if checkTok toks pos ty then .ok (tokAt toks pos, pos + 1)
  else
    let cur := tokAt toks pos
    .error (parseErr toks pos ("Expected " ++ tokenTypeStr ty ++ ", got " ++
      tokenTypeStr cur.type ++ " (" ++ cur.value ++ ")"))

/-- `Parser.isIdentifierLike`: keywords that are valid attribute names in
UI attribute position. -/
def isIdentifierLike (toks : List Token) (pos : Nat) : Bool :=
  if isAtEnd toks pos then false
  else
    let t := (tokAt toks pos).type
    t = .Identifier || t = .Style || t = .For || t = .In || t = .On ||
    t = .State || t = .Let || t = .Var || t = .If || t = .Else ||
    t = .Return || t = .True || t = .False || t = .Null || t = .Fn ||
    t = .Component || t = .Effect || t = .Import || t = .Export ||
    t = .From || t = .Emit

/-- `Parser.expectIdentifierOrKeyword`. -/
def expectIdentifierOrKeyword (toks : List Token) (pos : Nat) :
    Except String (String × Nat) :=
  if isIdentifierLike toks pos then .ok ((tokAt toks pos).value, pos + 1)
  else
    let cur := tokAt toks pos
    .error (parseErr toks pos ("Expected identifier, got " ++
      tokenTypeStr cur.type ++ " (" ++ cur.value ++ ")"))

/-- Loop of `Parser.skipNewlines` on the token suffix from `pos`. -/
def skipNewlinesGo : List Token → Nat → Nat
  | t :: rest, pos =>
    if t.type = .Newline ∨ t.type = .Semicolon then skipNewlinesGo rest (pos + 1)
    else pos
  | [], pos => pos

/-- `Parser.skipNewlines` (also skips semicolons, as in the source). -/
def skipNewlines (toks : List Token) (pos : Nat) : Nat :=
  skipNewlinesGo (toks.drop pos) pos

/-- `Parser.skipTerminator`: consume at most one newline or semicolon. -/
def skipTerminator (toks : List Token) (pos : Nat) : Nat :=
  if checkTok toks pos .Newline then pos + 1
  else if checkTok toks pos .Semicolon then pos + 1
  else pos

/-- First character is an ASCII letter (the `/^[a-zA-Z]/` test in
`Parser.isUIElement`). -/
def startsAsciiLetter (s : String) : Bool :=
  match s.data with
  | [] => false
  | c :: _ => ('a' ≤ c && c ≤ 'z') || ('A' ≤ c && c ≤ 'Z')

/-- First character is an upper-case ASCII letter (the `/^[A-Z]/` test in
`Parser.parseUIElement`). -/
def startsUpper (s : String) : Bool :=
  match s.data with
  | [] => false
  | c :: _ => 'A' ≤ c && c ≤ 'Z'

/-- `Parser.isUIElement`: a `<` whose following token is an identifier
beginning with an ASCII letter. -/
def isUIElement (toks : List Token) (pos : Nat) : Bool :=
  if !checkTok toks pos .LessThan then false
  else
    match toks.get? (pos + 1) with
    | none => false
    | some next => next.type = .Identifier && startsAsciiLetter next.value

/-- `Parser.isClosingTag`: `<` followed by `/`. -/
def isClosingTag (toks : List Token) (pos : Nat) : Bool :=
  checkTok toks pos .LessThan && pos + 1 < toks.length &&
    (tokAt toks (pos + 1)).type = .Slash

/-- Scan loop of `Parser.isArrowFunction`: find the parenthesis group's
end and test whether an `=>` follows (depth is an integer, mirroring the
source's counter). -/
def arrowScan (depth : Int) : List Token → Bool
  | [] => false
  | t :: rest =>
    let d1 := if t.type = .LeftParen then depth + 1 else depth
    let d2 := if t.type = .RightParen then d1 - 1 else d1
    if d2 = 0 then
      match rest with
      | t2 :: _ => t2.type = .Arrow
      | [] => false
    else arrowScan d2 rest

/-- `Parser.isArrowFunction`. -/
def isArrowFunction (toks : List Token) (pos : Nat) : Bool :=
  arrowScan 0 (toks.drop pos)

/-- Scan loop of `Parser.isObjectLiteral`: skip newlines after the brace,
then look for `identifier :`. -/
def objScan : List Token → Bool
  | [] => false
  | t :: rest =>
    if t.type = .Newline then objScan rest
    else
      match rest with
      | t2 :: _ => t.type = .Identifier && t2.type = .Colon
      | [] => false

/-- `Parser.isObjectLiteral`. -/
def isObjectLiteral (toks : List Token) (pos : Nat) : Bool :=
  objScan (toks.drop (pos + 1))

/-- Text-run scan in `Parser.parseUIElement`'s children loop: consecutive
text-like tokens (identifier, number, dot, comma, colon, `!`) are joined
with single spaces until a non-text token or a closing tag. -/
def uiTextish (t : Token) : Bool :=
  t.type = .Identifier || t.type = .Number || t.type = .Dot ||
  t.type = .Comma || t.type = .Colon || t.type = .Not

/-- The text-run loop itself, walking the token suffix from `pos`. -/
def uiTextGo (toks : List Token) : List Token → Nat → String → String × Nat
  | t :: rest, pos, acc =>
    if uiTextish t ∧ ¬isClosingTag toks pos then
      uiTextGo toks rest (pos + 1) (acc ++ " " ++ t.value)
    else (acc, pos)
  | [], pos, acc => (acc, pos)

set_option maxHeartbeats 3200000 in
mutual

/-- The loop in `Parser.parse`: statements separated by newline runs,
until the end of input. -/
def parseProgramLoop : Nat → List Token → Nat → Except String (List ASTNode × Nat)
  | 0, _, _ => .error "out of fuel"
  | f + 1, toks, pos =>
    if isAtEnd toks pos then .ok ([], pos)
    else
      let pos1 := skipNewlines toks pos
      if isAtEnd toks pos1 then .ok ([], pos1)
      else do
        let (stmt, pos2) ← parseStatement f toks pos1
        let pos3 := skipNewlines toks pos2
        let (rest, pos4) ← parseProgramLoop f toks pos3
        .ok (stmt :: rest, pos4)
  termination_by structural fuel _ _ => fuel

/-- `Parser.parseStatement`. -/
def parseStatement : Nat → List Token → Nat → Except String (ASTNode × Nat)
  | 0, _, _ => .error "out of fuel"
  | f + 1, toks, pos =>
    let t := (tokAt toks pos).type
    if t = .Import then parseImportDecl f toks pos
    else if t = .Export then parseExportDecl f toks pos
    else if t = .Component then parseComponent f toks pos
    else if t = .Fn then parseFunction f toks pos
    else if t = .Let then parseVariable f toks pos false
    else if t = .Var then parseVariable f toks pos true
    else if t = .State then parseState f toks pos
    else if t = .Effect then parseEffect f toks pos
    else if t = .Style then parseStyleDecl f toks pos
    else if t = .Return then parseReturn f toks pos
    else if t = .If then parseIf f toks pos
    else if t = .For then parseFor f toks pos
    else if isUIElement toks pos then parseUIElement f toks pos
    else parseExpressionStatement f toks pos
  termination_by structural fuel _ _ => fuel

/-- `Parser.parseImport`. -/
def parseImportDecl : Nat → List Token → Nat → Except String (ASTNode × Nat)
  | 0, _, _ => .error "out of fuel"
  | f + 1, toks, pos => do
    let (_, p1) ← expect toks pos .Import
    let (_, p2) ← expect toks p1 .LeftBrace
    let (specs, p3) ← importSpecLoop f toks p2
    let (_, p4) ← expect toks p3 .RightBrace
    let (_, p5) ← expect toks p4 .From
    let (srcTok, p6) ← expect toks p5 .String
    let p7 := skipTerminator toks p6
    .ok (.importDecl specs srcTok.value, p7)

/-- Specifier loop of `Parser.parseImport`. -/
def importSpecLoop : Nat → List Token → Nat → Except String (List String × Nat)
  | 0, _, _ => .error "out of fuel"
  | f + 1, toks, pos =>
    if checkTok toks pos .RightBrace then .ok ([], pos)
    else do
      let (idTok, p1) ← expect toks pos .Identifier
      if checkTok toks p1 .Comma then
        let p2 := skipNewlines toks (p1 + 1)
        let (rest, p3) ← importSpecLoop f toks p2
        .ok (idTok.value :: rest, p3)
      else .ok ([idTok.value], p1)
  termination_by structural fuel _ _ => fuel

/-- `Parser.parseExport`: `export` wraps the following statement. -/
def parseExportDecl : Nat → List Token → Nat → Except String (ASTNode × Nat)
  | 0, _, _ => .error "out of fuel"
  | f + 1, toks, pos => do
    let (_, p1) ← expect toks pos .Export
    let (decl, p2) ← parseStatement f toks p1
    .ok (.exportDecl decl, p2)
  termination_by structural fuel _ _ => fuel

/-- `Parser.parseComponent`. -/
def parseComponent : Nat → List Token → Nat → Except String (ASTNode × Nat)
  | 0, _, _ => .error "out of fuel"
  | f + 1, toks, pos => do
    let (_, p1) ← expect toks pos .Component
    let (nameTok, p2) ← expect toks p1 .Identifier
    let (params, p3) ←
      if checkTok toks p2 .LeftParen then do
        let (params, p') ← parseParams f toks (p2 + 1)
        let (_, p'') ← expect toks p' .RightParen
        pure (params, p'')
      else pure (([] : List (String × Option String × Option ASTNode)), p2)
    let (_, p4) ← expect toks p3 .LeftBrace
    let (body, p5) ← parseBlock f toks p4
    let (_, p6) ← expect toks p5 .RightBrace
    .ok (.componentDecl nameTok.value params body, p6)
  termination_by structural fuel _ _ => fuel

/-- `Parser.parseFunction` (including the `-> Type` lookahead that resets
on a bare `-`). -/
def parseFunction : Nat → List Token → Nat → Except String (ASTNode × Nat)
  | 0, _, _ => .error "out of fuel"
  | f + 1, toks, pos => do
    let (_, p1) ← expect toks pos .Fn
    let (nameTok, p2) ← expect toks p1 .Identifier
    let (_, p3) ← expect toks p2 .LeftParen
    let (params, p4) ← parseParams f toks p3
    let (_, p5) ← expect toks p4 .RightParen
    let (returnType, p6) ←
      if checkTok toks p5 .Minus then
        if checkTok toks (p5 + 1) .GreaterThan then do
          let (tyTok, p') ← expect toks (p5 + 2) .Identifier
          pure (some tyTok.value, p')
        else pure ((none : Option String), p5)
      else pure ((none : Option String), p5)
    let (_, p7) ← expect toks p6 .LeftBrace
    let (body, p8) ← parseBlock f toks p7
    let (_, p9) ← expect toks p8 .RightBrace
    .ok (.functionDecl nameTok.value params returnType body, p9)
  termination_by structural fuel _ _ => fuel

/-- `Parser.parseVariable` (`let` gives `mutable = false`, `var` true). -/
def parseVariable : Nat → List Token → Nat → Bool → Except String (ASTNode × Nat)
  | 0, _, _, _ => .error "out of fuel"
  | f + 1, toks, pos, mutFlag => do
    let p1 := pos + 1
    let (nameTok, p2) ← expect toks p1 .Identifier
    let (tyOpt, p3) ←
      if checkTok toks p2 .Colon then do
        let (tyTok, p') ← expect toks (p2 + 1) .Identifier
        pure (some tyTok.value, p')
      else pure ((none : Option String), p2)
    let (_, p4) ← expect toks p3 .Assign
    let (value, p5) ← parseExpression f toks p4
    let p6 := skipTerminator toks p5
    .ok (.variableDecl nameTok.value mutFlag tyOpt value, p6)
  termination_by structural fuel _ _ _ => fuel

/-- `Parser.parseState`. -/
def parseState : Nat → List Token → Nat → Except String (ASTNode × Nat)
  | 0, _, _ => .error "out of fuel"
  | f + 1, toks, pos => do
    let (_, p1) ← expect toks pos .State
    let (nameTok, p2) ← expect toks p1 .Identifier
    let (tyOpt, p3) ←
      if checkTok toks p2 .Colon then do
        let (tyTok, p') ← expect toks (p2 + 1) .Identifier
        pure (some tyTok.value, p')
      else pure ((none : Option String), p2)
    let (_, p4) ← expect toks p3 .Assign
    let (value, p5) ← parseExpression f toks p4
    let p6 := skipTerminator toks p5
    .ok (.stateDecl nameTok.value tyOpt value, p6)
  termination_by structural fuel _ _ => fuel

/-- `Parser.parseEffect`. -/
def parseEffect : Nat → List Token → Nat → Except String (ASTNode × Nat)
  | 0, _, _ => .error "out of fuel"
  | f + 1, toks, pos => do
    let (_, p1) ← expect toks pos .Effect
    let (deps, p2) ←
      if checkTok toks p1 .LeftParen then do
        let (deps, p') ← effectDepsLoop f toks (p1 + 1)
        let (_, p'') ← expect toks p' .RightParen
        pure (deps, p'')
      else pure (([] : List String), p1)
    let (_, p3) ← expect toks p2 .LeftBrace
    let (body, p4) ← parseBlock f toks p3
    let (_, p5) ← expect toks p4 .RightBrace
    .ok (.effectDecl deps body, p5)
  termination_by structural fuel _ _ => fuel

/-- Dependency-list loop of `Parser.parseEffect`. -/
def effectDepsLoop : Nat → List Token → Nat → Except String (List String × Nat)
  | 0, _, _ => .error "out of fuel"
  | f + 1, toks, pos =>
    if checkTok toks pos .RightParen then .ok ([], pos)
    else do
      let (idTok, p1) ← expect toks pos .Identifier
      if checkTok toks p1 .Comma then
        let (rest, p2) ← effectDepsLoop f toks (p1 + 1)
        .ok (idTok.value :: rest, p2)
      else .ok ([idTok.value], p1)
  termination_by structural fuel _ _ => fuel

/-- `Parser.parseStyleDecl`. -/
def parseStyleDecl : Nat → List Token → Nat → Except String (ASTNode × Nat)
  | 0, _, _ => .error "out of fuel"
  | f + 1, toks, pos => do
    let (_, p1) ← expect toks pos .Style
    let (nameOpt, p2) :=
      if checkTok toks p1 .Identifier then
        (some (tokAt toks p1).value, p1 + 1)
      else ((none : Option String), p1)
    let (_, p3) ← expect toks p2 .LeftBrace
    let p4 := skipNewlines toks p3
    let (props, p5) ← stylePropsLoop f toks p4
    let (_, p6) ← expect toks p5 .RightBrace
    .ok (.styleDecl nameOpt props, p6)
  termination_by structural fuel _ _ => fuel

/-- Property loop of `Parser.parseStyleDecl`. -/
def stylePropsLoop : Nat → List Token → Nat →
    Except String (List (String × ASTNode) × Nat)
  | 0, _, _ => .error "out of fuel"
  | f + 1, toks, pos =>
    if checkTok toks pos .RightBrace then .ok ([], pos)
    else do
      let (keyTok, p1) ← expect toks pos .Identifier
      let (_, p2) ← expect toks p1 .Colon
      let (value, p3) ← parseExpression f toks p2
      let p4 :=
        if checkTok toks p3 .Comma then p3 + 1
        else if checkTok toks p3 .Semicolon then p3 + 1
        else p3
      let p5 := skipNewlines toks p4
      let (rest, p6) ← stylePropsLoop f toks p5
      .ok ((keyTok.value, value) :: rest, p6)
  termination_by structural fuel _ _ => fuel

/-- `Parser.parseReturn`. -/
def parseReturn : Nat → List Token → Nat → Except String (ASTNode × Nat)
  | 0, _, _ => .error "out of fuel"
  | f + 1, toks, pos => do
    let (_, p1) ← expect toks pos .Return
    let (value, p2) ←
      if ¬checkTok toks p1 .Newline ∧ ¬checkTok toks p1 .RightBrace ∧
          ¬checkTok toks p1 .Semicolon ∧ ¬isAtEnd toks p1 then do
        let (e, p') ← parseExpression f toks p1
        pure (some e, p')
      else pure ((none : Option ASTNode), p1)
    let p3 := skipTerminator toks p2
    .ok (.returnStatement value, p3)
  termination_by structural fuel _ _ => fuel

/-- `Parser.parseIf` (newlines are skipped before looking for `else`). -/
def parseIf : Nat → List Token → Nat → Except String (ASTNode × Nat)
  | 0, _, _ => .error "out of fuel"
  | f + 1, toks, pos => do
    let (_, p1) ← expect toks pos .If
    let (condition, p2) ← parseExpression f toks p1
    let (_, p3) ← expect toks p2 .LeftBrace
    let (consequent, p4) ← parseBlock f toks p3
    let (_, p5) ← expect toks p4 .RightBrace
    let p6 := skipNewlines toks p5
    if checkTok toks p6 .Else then
      let p7 := p6 + 1
      if checkTok toks p7 .If then do
        let (alt, p8) ← parseIf f toks p7
        .ok (.ifStatement condition consequent (some [alt]), p8)
      else do
        let (_, p8) ← expect toks p7 .LeftBrace
        let (alt, p9) ← parseBlock f toks p8
        let (_, p10) ← expect toks p9 .RightBrace
        .ok (.ifStatement condition consequent (some alt), p10)
    else .ok (.ifStatement condition consequent none, p6)
  termination_by structural fuel _ _ => fuel

/-- `Parser.parseFor`. -/
def parseFor : Nat → List Token → Nat → Except String (ASTNode × Nat)
  | 0, _, _ => .error "out of fuel"
  | f + 1, toks, pos => do
    let (_, p1) ← expect toks pos .For
    let (varTok, p2) ← expect toks p1 .Identifier
    let (_, p3) ← expect toks p2 .In
    let (iterable, p4) ← parseExpression f toks p3
    let (_, p5) ← expect toks p4 .LeftBrace
    let (body, p6) ← parseBlock f toks p5
    let (_, p7) ← expect toks p6 .RightBrace
    .ok (.forStatement varTok.value iterable body, p7)
  termination_by structural fuel _ _ => fuel

/-- `Parser.parseExpressionStatement`. -/
def parseExpressionStatement : Nat → List Token → Nat → Except String (ASTNode × Nat)
  | 0, _, _ => .error "out of fuel"
  | f + 1, toks, pos => do
    let (e, p1) ← parseExpression f toks pos
    let p2 := skipTerminator toks p1
    .ok (.expressionStatement e, p2)
  termination_by structural fuel _ _ => fuel

/-- `Parser.parseUIElement`: tag, attribute/prop loop, self-closing or
children plus matching closing tag; the node kind is decided by whether
the tag starts with an upper-case letter. -/
def parseUIElement : Nat → List Token → Nat → Except String (ASTNode × Nat)
  | 0, _, _ => .error "out of fuel"
  | f + 1, toks, pos => do
    let (_, p1) ← expect toks pos .LessThan
    let (tagTok, p2) ← expect toks p1 .Identifier
    let tag := tagTok.value
    let isComp := startsUpper tag
    let p3 := skipNewlines toks p2
    let (attrs, props, p4) ← uiAttrLoop f toks p3 isComp
    if checkTok toks p4 .Slash then do
      let (_, p5) ← expect toks (p4 + 1) .GreaterThan
      if isComp then .ok (.componentInstance tag props [] true, p5)
      else .ok (.uiElement tag attrs [] true, p5)
    else do
      let (_, p5) ← expect toks p4 .GreaterThan
      let (children, p6) ← uiChildLoop f toks p5
      let (_, p7) ← expect toks p6 .LessThan
      let (_, p8) ← expect toks p7 .Slash
      let (closTok, p9) ← expect toks p8 .Identifier
      if closTok.value ≠ tag then
        .error (parseErr toks p9 ("Expected closing tag </" ++ tag ++
          ">, got </" ++ closTok.value ++ ">"))
      else do
        let (_, p10) ← expect toks p9 .GreaterThan
        if isComp then .ok (.componentInstance tag props children false, p10)
        else .ok (.uiElement tag attrs children false, p10)
  termination_by structural fuel _ _ => fuel

/-- Attribute loop of `Parser.parseUIElement`: for component tags only
attributes with an explicit value become props; value-less attributes are
kept (as `none`) for plain elements and dropped for components. -/
def uiAttrLoop : Nat → List Token → Nat → Bool →
    Except String (List (String × Option ASTNode) × List (String × ASTNode) × Nat)
  | 0, _, _, _ => .error "out of fuel"
  | f + 1, toks, pos, isComp =>
    if ¬checkTok toks pos .GreaterThan ∧ ¬checkTok toks pos .Slash ∧
        ¬isAtEnd toks pos then
      let p1 := skipNewlines toks pos
      if checkTok toks p1 .GreaterThan ∨ checkTok toks p1 .Slash then
        .ok ([], [], p1)
      else do
        let (attrName, p2) ←
          if checkTok toks p1 .At then do
            let (n, p') ← expectIdentifierOrKeyword toks (p1 + 1)
            pure ("@" ++ n, p')
          else do
            let (n, p') ← expectIdentifierOrKeyword toks p1
            attrNameDashLoop f toks p' n
        let (attrValue, p3) ←
          if checkTok toks p2 .Assign then
            let pa := p2 + 1
            if checkTok toks pa .LeftBrace then do
              let (e, p') ← parseExpression f toks (pa + 1)
              let (_, p'') ← expect toks p' .RightBrace
              pure (some e, p'')
            else if checkTok toks pa .String then
              pure (some (ASTNode.stringLiteral (tokAt toks pa).value), pa + 1)
            else do
              let (e, p') ← parseExpression f toks pa
              pure (some e, p')
          else pure ((none : Option ASTNode), p2)
        let p4 := skipNewlines toks p3
        let (attrs, props, p5) ← uiAttrLoop f toks p4 isComp
        match attrValue, isComp with
        | some v, true => .ok (attrs, (attrName, v) :: props, p5)
        | _, _ => .ok ((attrName, attrValue) :: attrs, props, p5)
    else .ok ([], [], pos)
  termination_by structural fuel _ _ _ => fuel

/-- Hyphenated attribute names: `name += '-' + identifier` while a `-`
follows. -/
def attrNameDashLoop : Nat → List Token → Nat → String → Except String (String × Nat)
  | 0, _, _, _ => .error "out of fuel"
  | f + 1, toks, pos, acc =>
    if checkTok toks pos .Minus then do
      let (n, p1) ← expectIdentifierOrKeyword toks (pos + 1)
      attrNameDashLoop f toks p1 (acc ++ "-" ++ n)
    else .ok (acc, pos)
  termination_by structural fuel _ _ _ => fuel

/-- Children loop of `Parser.parseUIElement`: `{ }` dispatches to an
`if` block, a `for` block, or a wrapped expression; nested elements,
string literals and text runs are collected until a closing tag. -/
def uiChildLoop : Nat → List Token → Nat → Except String (List ASTNode × Nat)
  | 0, _, _ => .error "out of fuel"
  | f + 1, toks, pos =>
    if isClosingTag toks pos then .ok ([], pos)
    else
      let p1 := skipNewlines toks pos
      if isClosingTag toks p1 then .ok ([], p1)
      else if checkTok toks p1 .LeftBrace then do
        let p2 := skipNewlines toks (p1 + 1)
        let (child, p3) ←
          if checkTok toks p2 .If then parseIf f toks p2
          else if checkTok toks p2 .For then parseFor f toks p2
          else do
            let (e, p') ← parseExpression f toks p2
            pure (ASTNode.uiExpression e, p')
        let (_, p4) ← expect toks p3 .RightBrace
        let (rest, p5) ← uiChildLoop f toks p4
        .ok (child :: rest, p5)
      else if isUIElement toks p1 then do
        let (el, p2) ← parseUIElement f toks p1
        let (rest, p3) ← uiChildLoop f toks p2
        .ok (el :: rest, p3)
      else if checkTok toks p1 .String then do
        let (rest, p2) ← uiChildLoop f toks (p1 + 1)
        .ok (.uiText (tokAt toks p1).value :: rest, p2)
      else if checkTok toks p1 .Identifier ∨ checkTok toks p1 .Number then do
        let (text, p2) :=
          uiTextGo toks (toks.drop (p1 + 1)) (p1 + 1) (tokAt toks p1).value
        let (rest, p3) ← uiChildLoop f toks p2
        .ok (.uiText text :: rest, p3)
      else .ok ([], p1)
  termination_by structural fuel _ _ => fuel

/-- `Parser.parseExpression`. -/
def parseExpression : Nat → List Token → Nat → Except String (ASTNode × Nat)
  | 0, _, _ => .error "out of fuel"
  | f + 1, toks, pos => parsePipe f toks pos
  termination_by structural fuel _ _ => fuel

/-- `Parser.parsePipe` (`|>`, left-associative). -/
def parsePipe : Nat → List Token → Nat → Except String (ASTNode × Nat)
  | 0, _, _ => .error "out of fuel"
  | f + 1, toks, pos => do
    let (left, p1) ← parseAssignment f toks pos
    pipeLoop f toks p1 left
  termination_by structural fuel _ _ => fuel

def pipeLoop : Nat → List Token → Nat → ASTNode → Except String (ASTNode × Nat)
  | 0, _, _, _ => .error "out of fuel"
  | f + 1, toks, pos, left =>
    if checkTok toks pos .Pipe then do
      let (right, p1) ← parseAssignment f toks (pos + 1)
      pipeLoop f toks p1 (.pipeExpr left right)
    else .ok (left, pos)
  termination_by structural fuel _ _ _ => fuel

/-- `Parser.parseAssignment` (right-associative; target validity is not
checked by the grammar). -/
def parseAssignment : Nat → List Token → Nat → Except String (ASTNode × Nat)
  | 0, _, _ => .error "out of fuel"
  | f + 1, toks, pos => do
    let (left, p1) ← parseTernary f toks pos
    if checkTok toks p1 .Assign then do
      let (value, p2) ← parseAssignment f toks (p1 + 1)
      .ok (.assignExpr left value, p2)
    else .ok (left, p1)
  termination_by structural fuel _ _ => fuel

/-- `Parser.parseTernary`: a `?` is an `Identifier` token whose text is
`"?"`. -/
def parseTernary : Nat → List Token → Nat → Except String (ASTNode × Nat)
  | 0, _, _ => .error "out of fuel"
  | f + 1, toks, pos => do
    let (condition, p1) ← parseOr f toks pos
    if checkTok toks p1 .Identifier ∧ (tokAt toks p1).value = "?" then do
      let (consequent, p2) ← parseExpression f toks (p1 + 1)
      let (_, p3) ← expect toks p2 .Colon
      let (alternate, p4) ← parseExpression f toks p3
      .ok (.conditionalExpr condition consequent alternate, p4)
    else .ok (condition, p1)
  termination_by structural fuel _ _ => fuel

def parseOr : Nat → List Token → Nat → Except String (ASTNode × Nat)
  | 0, _, _ => .error "out of fuel"
  | f + 1, toks, pos => do
    let (left, p1) ← parseAnd f toks pos
    orLoop f toks p1 left
  termination_by structural fuel _ _ => fuel

def orLoop : Nat → List Token → Nat → ASTNode → Except String (ASTNode × Nat)
  | 0, _, _, _ => .error "out of fuel"
  | f + 1, toks, pos, left =>
    if checkTok toks pos .Or then do
      let (right, p1) ← parseAnd f toks (pos + 1)
      orLoop f toks p1 (.binaryExpr "||" left right)
    else .ok (left, pos)
  termination_by structural fuel _ _ _ => fuel

def parseAnd : Nat → List Token → Nat → Except String (ASTNode × Nat)
  | 0, _, _ => .error "out of fuel"
  | f + 1, toks, pos => do
    let (left, p1) ← parseEquality f toks pos
    andLoop f toks p1 left
  termination_by structural fuel _ _ => fuel

def andLoop : Nat → List Token → Nat → ASTNode → Except String (ASTNode × Nat)
  | 0, _, _, _ => .error "out of fuel"
  | f + 1, toks, pos, left =>
    if checkTok toks pos .And then do
      let (right, p1) ← parseEquality f toks (pos + 1)
      andLoop f toks p1 (.binaryExpr "&&" left right)
    else .ok (left, pos)
  termination_by structural fuel _ _ _ => fuel

def parseEquality : Nat → List Token → Nat → Except String (ASTNode × Nat)
  | 0, _, _ => .error "out of fuel"
  | f + 1, toks, pos => do
    let (left, p1) ← parseComparison f toks pos
    eqLoop f toks p1 left
  termination_by structural fuel _ _ => fuel

def eqLoop : Nat → List Token → Nat → ASTNode → Except String (ASTNode × Nat)
  | 0, _, _, _ => .error "out of fuel"
  | f + 1, toks, pos, left =>
    if checkTok toks pos .Equals ∨ checkTok toks pos .NotEquals then do
      let op := (tokAt toks pos).value
      let (right, p1) ← parseComparison f toks (pos + 1)
      eqLoop f toks p1 (.binaryExpr op left right)
    else .ok (left, pos)
  termination_by structural fuel _ _ _ => fuel

/-- `Parser.parseComparison`: a `<` that begins a UI element is not taken
as a relational operator. -/
def parseComparison : Nat → List Token → Nat → Except String (ASTNode × Nat)
  | 0, _, _ => .error "out of fuel"
  | f + 1, toks, pos => do
    let (left, p1) ← parseAddition f toks pos
    compLoop f toks p1 left
  termination_by structural fuel _ _ => fuel

def compLoop : Nat → List Token → Nat → ASTNode → Except String (ASTNode × Nat)
  | 0, _, _, _ => .error "out of fuel"
  | f + 1, toks, pos, left =>
    if (checkTok toks pos .LessThan ∧ ¬isUIElement toks pos) ∨
        checkTok toks pos .GreaterThan ∨ checkTok toks pos .LessEqual ∨
        checkTok toks pos .GreaterEqual then do
      let op := (tokAt toks pos).value
      let (right, p1) ← parseAddition f toks (pos + 1)
      compLoop f toks p1 (.binaryExpr op left right)
    else .ok (left, pos)
  termination_by structural fuel _ _ _ => fuel

def parseAddition : Nat → List Token → Nat → Except String (ASTNode × Nat)
  | 0, _, _ => .error "out of fuel"
  | f + 1, toks, pos => do
    let (left, p1) ← parseMultiplication f toks pos
    addLoop f toks p1 left
  termination_by structural fuel _ _ => fuel

def addLoop : Nat → List Token → Nat → ASTNode → Except String (ASTNode × Nat)
  | 0, _, _, _ => .error "out of fuel"
  | f + 1, toks, pos, left =>
    if checkTok toks pos .Plus ∨ checkTok toks pos .Minus then do
      let op := (tokAt toks pos).value
      let (right, p1) ← parseMultiplication f toks (pos + 1)
      addLoop f toks p1 (.binaryExpr op left right)
    else .ok (left, pos)
  termination_by structural fuel _ _ _ => fuel

def parseMultiplication : Nat → List Token → Nat → Except String (ASTNode × Nat)
  | 0, _, _ => .error "out of fuel"
  | f + 1, toks, pos => do
    let (left, p1) ← parseUnary f toks pos
    mulLoop f toks p1 left
  termination_by structural fuel _ _ => fuel

def mulLoop : Nat → List Token → Nat → ASTNode → Except String (ASTNode × Nat)
  | 0, _, _, _ => .error "out of fuel"
  | f + 1, toks, pos, left =>
    if checkTok toks pos .Star ∨ checkTok toks pos .Slash ∨
        checkTok toks pos .Percent then do
      let op := (tokAt toks pos).value
      let (right, p1) ← parseUnary f toks (pos + 1)
      mulLoop f toks p1 (.binaryExpr op left right)
    else .ok (left, pos)
  termination_by structural fuel _ _ _ => fuel

/-- `Parser.parseUnary` (prefix `!` and `-`). -/
def parseUnary : Nat → List Token → Nat → Except String (ASTNode × Nat)
  | 0, _, _ => .error "out of fuel"
  | f + 1, toks, pos =>
    if checkTok toks pos .Not ∨ checkTok toks pos .Minus then do
      let op := (tokAt toks pos).value
      let (operand, p1) ← parseUnary f toks (pos + 1)
      .ok (.unaryExpr op operand, p1)
    else parseCallAndMember f toks pos
  termination_by structural fuel _ _ => fuel

def parseCallAndMember : Nat → List Token → Nat → Except String (ASTNode × Nat)
  | 0, _, _ => .error "out of fuel"
  | f + 1, toks, pos => do
    let (e, p1) ← parsePrimary f toks pos
    callMemberLoop f toks p1 e
  termination_by structural fuel _ _ => fuel

/-- Postfix chain of `Parser.parseCallAndMember`: calls, `.prop` access,
and computed `[index]` access (the latter records the index expression
and an empty property name). -/
def callMemberLoop : Nat → List Token → Nat → ASTNode → Except String (ASTNode × Nat)
  | 0, _, _, _ => .error "out of fuel"
  | f + 1, toks, pos, e =>
    if checkTok toks pos .LeftParen then do
      let p1 := skipNewlines toks (pos + 1)
      let (args, p2) ← callArgsLoop f toks p1
      let (_, p3) ← expect toks p2 .RightParen
      callMemberLoop f toks p3 (.callExpr e args)
    else if checkTok toks pos .Dot then do
      let (propTok, p1) ← expect toks (pos + 1) .Identifier
      callMemberLoop f toks p1 (.memberExpr e propTok.value false none)
    else if checkTok toks pos .LeftBracket then do
      let (idx, p1) ← parseExpression f toks (pos + 1)
      let (_, p2) ← expect toks p1 .RightBracket
      callMemberLoop f toks p2 (.memberExpr e "" true (some idx))
    else .ok (e, pos)
  termination_by structural fuel _ _ _ => fuel

def callArgsLoop : Nat → List Token → Nat → Except String (List ASTNode × Nat)
  | 0, _, _ => .error "out of fuel"
  | f + 1, toks, pos =>
    if checkTok toks pos .RightParen then .ok ([], pos)
    else do
      let (a, p1) ← parseExpression f toks pos
      if checkTok toks p1 .Comma then
        let p2 := skipNewlines toks (p1 + 1)
        let (rest, p3) ← callArgsLoop f toks p2
        .ok (a :: rest, p3)
      else .ok ([a], p1)
  termination_by structural fuel _ _ => fuel

/-- `Parser.parsePrimary`. -/
def parsePrimary : Nat → List Token → Nat → Except String (ASTNode × Nat)
  | 0, _, _ => .error "out of fuel"
  | f + 1, toks, pos =>
    if checkTok toks pos .LeftParen ∧ isArrowFunction toks pos then
      parseArrowFunction f toks pos
    else if checkTok toks pos .LeftParen then do
      let (e, p1) ← parseExpression f toks (pos + 1)
      let (_, p2) ← expect toks p1 .RightParen
      .ok (e, p2)
    else if checkTok toks pos .LeftBracket then do
      let p1 := skipNewlines toks (pos + 1)
      let (elems, p2) ← arrayElemsLoop f toks p1
      let (_, p3) ← expect toks p2 .RightBracket
      .ok (.arrayLiteral elems, p3)
    else if checkTok toks pos .LeftBrace ∧ isObjectLiteral toks pos then do
      let p1 := skipNewlines toks (pos + 1)
      let (props, p2) ← objPropsLoop f toks p1
      let (_, p3) ← expect toks p2 .RightBrace
      .ok (.objectLiteral props, p3)
    else if checkTok toks pos .Number then
      .ok (.numberLiteral (tokAt toks pos).value, pos + 1)
    else if checkTok toks pos .String then
      .ok (.stringLiteral (tokAt toks pos).value, pos + 1)
    else if checkTok toks pos .True then .ok (.booleanLiteral true, pos + 1)
    else if checkTok toks pos .False then .ok (.booleanLiteral false, pos + 1)
    else if checkTok toks pos .Null then .ok (.nullLiteral, pos + 1)
    else if checkTok toks pos .Identifier then
      let name := (tokAt toks pos).value
      let p1 := pos + 1
      if checkTok toks p1 .Arrow then
        let p2 := p1 + 1
        if checkTok toks p2 .LeftBrace then do
          let (body, p3) ← parseBlock f toks (p2 + 1)
          let (_, p4) ← expect toks p3 .RightBrace
          .ok (.arrowFunction [(name, none, none)] (.inl body), p4)
        else do
          let (bodyE, p3) ← parseExpression f toks p2
          .ok (.arrowFunction [(name, none, none)] (.inr bodyE), p3)
      else .ok (.identifier name, p1)
    else
      .error (parseErr toks pos ("Unexpected token: " ++
        tokenTypeStr (tokAt toks pos).type ++ " (" ++ (tokAt toks pos).value ++ ")"))
  termination_by structural fuel _ _ => fuel

/-- Element loop of the array-literal case in `Parser.parsePrimary`
(commas are consumed but not required). -/
def arrayElemsLoop : Nat → List Token → Nat → Except String (List ASTNode × Nat)
  | 0, _, _ => .error "out of fuel"
  | f + 1, toks, pos =>
    if checkTok toks pos .RightBracket then .ok ([], pos)
    else do
      let (e, p1) ← parseExpression f toks pos
      let p2 := if checkTok toks p1 .Comma then p1 + 1 else p1
      let p3 := skipNewlines toks p2
      let (rest, p4) ← arrayElemsLoop f toks p3
      .ok (e :: rest, p4)
  termination_by structural fuel _ _ => fuel

/-- Property loop of the object-literal case in `Parser.parsePrimary`. -/
def objPropsLoop : Nat → List Token → Nat →
    Except String (List (String × ASTNode) × Nat)
  | 0, _, _ => .error "out of fuel"
  | f + 1, toks, pos =>
    if checkTok toks pos .RightBrace then .ok ([], pos)
    else do
      let (keyTok, p1) ← expect toks pos .Identifier
      let (_, p2) ← expect toks p1 .Colon
      let (value, p3) ← parseExpression f toks p2
      let p4 := if checkTok toks p3 .Comma then p3 + 1 else p3
      let p5 := skipNewlines toks p4
      let (rest, p6) ← objPropsLoop f toks p5
      .ok ((keyTok.value, value) :: rest, p6)
  termination_by structural fuel _ _ => fuel

/-- `Parser.parseArrowFunction`. -/
def parseArrowFunction : Nat → List Token → Nat → Except String (ASTNode × Nat)
  | 0, _, _ => .error "out of fuel"
  | f + 1, toks, pos => do
    let (_, p1) ← expect toks pos .LeftParen
    let (params, p2) ← parseParams f toks p1
    let (_, p3) ← expect toks p2 .RightParen
    let (_, p4) ← expect toks p3 .Arrow
    if checkTok toks p4 .LeftBrace then do
      let (body, p5) ← parseBlock f toks (p4 + 1)
      let (_, p6) ← expect toks p5 .RightBrace
      .ok (.arrowFunction params (.inl body), p6)
    else do
      let (bodyE, p5) ← parseExpression f toks p4
      .ok (.arrowFunction params (.inr bodyE), p5)
  termination_by structural fuel _ _ => fuel

/-- `Parser.parseParams`. -/
def parseParams : Nat → List Token → Nat →
    Except String (List (String × Option String × Option ASTNode) × Nat)
  | 0, _, _ => .error "out of fuel"
  | f + 1, toks, pos =>
    let p1 := skipNewlines toks pos
    paramLoop f toks p1
  termination_by structural fuel _ _ => fuel

def paramLoop : Nat → List Token → Nat →
    Except String (List (String × Option String × Option ASTNode) × Nat)
  | 0, _, _ => .error "out of fuel"
  | f + 1, toks, pos =>
    if checkTok toks pos .RightParen then .ok ([], pos)
    else do
      let (nameTok, p1) ← expect toks pos .Identifier
      let (tyOpt, p2) ←
        if checkTok toks p1 .Colon then do
          let (tyTok, p') ← expect toks (p1 + 1) .Identifier
          pure (some tyTok.value, p')
        else pure ((none : Option String), p1)
      let (dvOpt, p3) ←
        if checkTok toks p2 .Assign then do
          let (e, p') ← parseExpression f toks (p2 + 1)
          pure (some e, p')
        else pure ((none : Option ASTNode), p2)
      if checkTok toks p3 .Comma then
        let p4 := skipNewlines toks (p3 + 1)
        let (rest, p5) ← paramLoop f toks p4
        .ok ((nameTok.value, tyOpt, dvOpt) :: rest, p5)
      else .ok ([(nameTok.value, tyOpt, dvOpt)], p3)
  termination_by structural fuel _ _ => fuel

/-- `Parser.parseBlock`. -/
def parseBlock : Nat → List Token → Nat → Except String (List ASTNode × Nat)
  | 0, _, _ => .error "out of fuel"
  | f + 1, toks, pos =>
    let p1 := skipNewlines toks pos
    blockStmts f toks p1
  termination_by structural fuel _ _ => fuel

def blockStmts : Nat → List Token → Nat → Except String (List ASTNode × Nat)
  | 0, _, _ => .error "out of fuel"
  | f + 1, toks, pos =>
    if checkTok toks pos .RightBrace ∨ isAtEnd toks pos then .ok ([], pos)
    else do
      let (s, p1) ← parseStatement f toks pos
      let p2 := skipNewlines toks p1
      let (rest, p3) ← blockStmts f toks p2
      .ok (s :: rest, p3)

  termination_by structural fuel _ _ => fuel
end

/-- `Parser.parse`: the driver, returning the `Program` root.  The fuel
bounds the call depth of the recursive descent; `100 * length + 100`
comfortably covers it (each nesting level of the grammar costs a fixed
number of frames and consumes at least one token). -/
def parse (toks : List Token) : Except String ASTNode := do
  let (body, _) ← parseProgramLoop (100 * toks.length + 100) toks 0
  .ok (.program body)

/-- Lex then parse. -/
def lexParse (s : String) : Except String ASTNode := do
  parse (← tokenize s)


-- ── Type Checker (`src/typechecker/index.ts`) ────────────────────────────

/-- `LuminaType` from the checker: a closed set of types; `Object`,
`Function` and `Component` carry structure. -/
inductive LuminaType where
  | int | string | bool | null
  | array (elementType : LuminaType)
  | object (properties : List (String × LuminaType))
  | function (params : List LuminaType) (returnType : LuminaType)
  | component (props : List (String × LuminaType))
  | any | void

/-- JavaScript `Map.set`: update an existing key in place, else append
(insertion order preserved). -/
def mapSet {α : Type} : List (String × α) → String → α → List (String × α)
  | [], k, v => [(k, v)]
  | (k', v') :: rest, k, v =>
    if k' = k then (k, v) :: rest else (k', v') :: mapSet rest k v

/-- JavaScript `Map.get` (first match). -/
def mapGet {α : Type} : List (String × α) → String → Option α
  | [], _ => none
  | (k', v') :: rest, k => if k' = k then some v' else mapGet rest k

/-- `interface TypeEnvironment`: bindings plus an optional parent. -/
inductive TypeEnv where
  | mk (bindings : List (String × LuminaType)) (parent : Option TypeEnv)

/-- `TypeChecker.lookup`: walk the scope chain outward. -/
def TypeEnv.lookupVar : TypeEnv → String → Option LuminaType
  | .mk bindings parent, name =>
    match mapGet bindings name with
    | some t => some t
    | none =>
      match parent with
      | some p => p.lookupVar name
      | none => none

/-- `env.bindings.set` on the current frame. -/
def TypeEnv.setVar : TypeEnv → String → LuminaType → TypeEnv
  | .mk bindings parent, name, t => .mk (mapSet bindings name t) parent

/-- `TypeChecker.parseTypeAnnotation` (sic): only the four exact names
`Int`, `String`, `Bool`, `Void` are recognized; everything else (and a
missing annotation) is `Any`. -/
def parseTypeAnn (a : Option String) : LuminaType :=
  match a with
  | none => .any
  | some s =>
    if s = "Int" then .int
    else if s = "String" then .string
    else if s = "Bool" then .bool
    else if s = "Void" then .void
    else .any

/-- The `kind` discriminant string of a type (TypeScript compares these). -/
def kindOf : LuminaType → String
  | .int => "Int" | .string => "String" | .bool => "Bool" | .null => "Null"
  | .array _ => "Array" | .object _ => "Object" | .function _ _ => "Function"
  | .component _ => "Component" | .any => "Any" | .void => "Void"

/-- `TypeChecker.isCompatible`: `Any` and `Void` are universal in both
directions; otherwise the kinds must agree, with `Array` requiring
recursive element compatibility (other structured kinds compare by kind
only). -/
def isCompatible (actual expected : LuminaType) : Bool :=
  if kindOf expected = "Any" ∨ kindOf actual = "Any" then true
  else if kindOf expected = "Void" ∨ kindOf actual = "Void" then true
  else if kindOf actual = kindOf expected then
    match actual, expected with
    | .array a, .array e => isCompatible a e
    | _, _ => true
  else false

/-- `TypeChecker.typeToString`. -/
def typeToString : LuminaType → String
  | .int => "Int" | .string => "String" | .bool => "Bool" | .null => "Null"
  | .void => "Void" | .any => "Any"
  | .array t => "Array<" ++ typeToString t ++ ">"
  | .object _ => "Object" | .function _ _ => "Function"
  | .component _ => "Component"

/-- `TypeChecker.addError`'s message decoration. -/
def typeErr (msg : String) : String := "[Type Error] " ++ msg

/-- The component registry `this.components` (name to props map). -/
abbrev Components := List (String × List (String × LuminaType))

/-- Parameter list to bindings map, as the checker builds them. -/
def paramBindings (params : List (String × Option String × Option ASTNode)) :
    List (String × LuminaType) :=
  params.foldl (fun m p => mapSet m p.1 (parseTypeAnn p.2.1)) []

mutual

/-- `TypeChecker.checkNode`: returns the node's type; the environment and
the diagnostics list are threaded explicitly (the TypeScript mutates
`env.bindings` and pushes onto `this.errors`).  Diagnostics are only ever
appended; no case throws. -/
def checkNode (comps : Components) : ASTNode → TypeEnv → List String →
    LuminaType × TypeEnv × List String
  | .program body, env, errs =>
    let (env1, errs1) := checkNodes comps body env errs
    (.void, env1, errs1)
  | .componentDecl _ params body, env, errs =>
    let localEnv : TypeEnv := .mk (paramBindings params) (some env)
    let (_, errs1) := checkNodes comps body localEnv errs
    (.void, env, errs1)
  | .functionDecl name params retTy body, env, errs =>
    let localEnv : TypeEnv := .mk (paramBindings params) (some env)
    let (_, errs1) := checkFnBody comps name retTy body localEnv errs
    (.void, env, errs1)
  | .variableDecl name _ tyAnn value, env, errs =>
    let (vt, env1, errs1) := checkNode comps value env errs
    let declared := parseTypeAnn tyAnn
    let errs2 :=
      if ¬isCompatible vt declared then
        errs1 ++ [typeErr ("Variable " ++ name ++ " declared as " ++
          typeToString declared ++ " but initialized with " ++ typeToString vt)]
      else errs1
    (.void, env1.setVar name (if kindOf declared = "Any" then vt else declared),
      errs2)
  | .stateDecl name tyAnn value, env, errs =>
    let (vt, env1, errs1) := checkNode comps value env errs
    let declared := parseTypeAnn tyAnn
    let errs2 :=
      if ¬isCompatible vt declared then
        errs1 ++ [typeErr ("State " ++ name ++ " declared as " ++
          typeToString declared ++ " but initialized with " ++ typeToString vt)]
      else errs1
    (.void, env1.setVar name (if kindOf declared = "Any" then vt else declared),
      errs2)
  | .assignExpr target value, env, errs =>
    let (tt, env1, errs1) := checkNode comps target env errs
    let (vt, env2, errs2) := checkNode comps value env1 errs1
    let errs3 :=
      if ¬isCompatible vt tt then
        errs2 ++ [typeErr ("Cannot assign " ++ typeToString vt ++ " to " ++
          typeToString tt)]
      else errs2
    (vt, env2, errs3)
  | .binaryExpr op l r, env, errs =>
    let (lt, env1, errs1) := checkNode comps l env errs
    let (rt, env2, errs2) := checkNode comps r env1 errs1
    if op = "+" ∨ op = "-" ∨ op = "*" ∨ op = "/" ∨ op = "%" then
      if op = "+" then
        if kindOf lt = "String" ∨ kindOf rt = "String" then (.string, env2, errs2)
        else if kindOf lt = "Int" ∧ kindOf rt = "Int" then (.int, env2, errs2)
        else (.any, env2, errs2)
      else
        let errs3 :=
          if kindOf lt ≠ "Int" ∨ kindOf rt ≠ "Int" then
            errs2 ++ [typeErr ("Operator " ++ op ++ " requires Int operands")]
          else errs2
        (.int, env2, errs3)
    else if op = "==" ∨ op = "!=" ∨ op = "<" ∨ op = ">" ∨ op = "<=" ∨ op = ">=" then
      (.bool, env2, errs2)
    else if op = "&&" ∨ op = "||" then
      let errs3 :=
        if kindOf lt ≠ "Bool" ∨ kindOf rt ≠ "Bool" then
          errs2 ++ [typeErr ("Operator " ++ op ++ " requires Bool operands")]
        else errs2
      (.bool, env2, errs3)
    else (.any, env2, errs2)
  | .unaryExpr op operand, env, errs =>
    let (ot, env1, errs1) := checkNode comps operand env errs
    if op = "!" then
      let errs2 :=
        if kindOf ot ≠ "Bool" then
          errs1 ++ [typeErr "Operator ! requires Bool operand"]
        else errs1
      (.bool, env1, errs2)
    else if op = "-" then
      let errs2 :=
        if kindOf ot ≠ "Int" then
          errs1 ++ [typeErr "Operator - requires Int operand"]
        else errs1
      (.int, env1, errs2)
    else (.any, env1, errs1)
  | .callExpr callee args, env, errs =>
    let (ct, env1, errs1) := checkNode comps callee env errs
    match ct with
    | .function ps ret =>
      let errs2 :=
        if args.length ≠ ps.length then
          errs1 ++ [typeErr ("Function expects " ++ toString ps.length ++
            " arguments but got " ++ toString args.length)]
        else errs1
      let (env2, errs3) := checkCallArgs comps 1 ps args env1 errs2
      (ret, env2, errs3)
    | _ => (.any, env1, errs1)
  | .memberExpr obj prop _ _, env, errs =>
    let (ot, env1, errs1) := checkNode comps obj env errs
    match ot with
    | .object props =>
      match mapGet props prop with
      | some pt => (pt, env1, errs1)
      | none => (.any, env1, errs1)
    | _ => (.any, env1, errs1)
  | .componentInstance name props _ _, env, errs =>
    match mapGet comps name with
    | none => (.any, env, errs ++ [typeErr ("Unknown component: " ++ name)])
    | some compProps =>
      let (env1, errs1) := checkInstProps comps name compProps props env errs
      (.any, env1, errs1)
  | .identifier name, env, errs =>
    match env.lookupVar name with
    | none => (.any, env, errs ++ [typeErr ("Undefined variable: " ++ name)])
    | some t => (t, env, errs)
  | .numberLiteral _, env, errs => (.int, env, errs)
  | .stringLiteral _, env, errs => (.string, env, errs)
  | .booleanLiteral _, env, errs => (.bool, env, errs)
  | .nullLiteral, env, errs => (.null, env, errs)
  | .arrayLiteral [], env, errs => (.array .any, env, errs)
  | .arrayLiteral (e :: _), env, errs =>
    let (ft, env1, errs1) := checkNode comps e env errs
    (.array ft, env1, errs1)
  | .objectLiteral props, env, errs =>
    let (ps, env1, errs1) := checkObjProps comps props [] env errs
    (.object ps, env1, errs1)
  | .ifStatement cond cons alt, env, errs =>
    let (ct, env1, errs1) := checkNode comps cond env errs
    let errs2 :=
      if kindOf ct ≠ "Bool" then
        errs1 ++ [typeErr ("If condition must be Bool but got " ++
          typeToString ct)]
      else errs1
    let (env2, errs3) := checkNodes comps cons env1 errs2
    match alt with
    | some altStmts =>
      let (env3, errs4) := checkNodes comps altStmts env2 errs3
      (.void, env3, errs4)
    | none => (.void, env2, errs3)
  | .forStatement varName _ body, env, errs =>
    let localEnv : TypeEnv := .mk (mapSet [] varName .any) (some env)
    let (_, errs1) := checkNodes comps body localEnv errs
    (.void, env, errs1)
  | .expressionStatement e, env, errs =>
    let (_, env1, errs1) := checkNode comps e env errs
    (.void, env1, errs1)
  | .uiElement _ _ children _, env, errs =>
    let (env1, errs1) := checkNodes comps children env errs
    (.any, env1, errs1)
  | .uiText _, env, errs => (.any, env, errs)
  | .uiExpression e, env, errs =>
    let (_, env1, errs1) := checkNode comps e env errs
    (.any, env1, errs1)
  | _, env, errs => (.any, env, errs)
  termination_by n _ _ => (sizeOf n, 0)
  decreasing_by all_goals (simp [Prod.lex_iff]; try omega)

/-- The `for (const stmt of ...) checkNode(stmt, env)` loops. -/
def checkNodes (comps : Components) : List ASTNode → TypeEnv → List String →
    TypeEnv × List String
  | [], env, errs => (env, errs)
  | n :: rest, env, errs =>
    let (_, env1, errs1) := checkNode comps n env errs
    checkNodes comps rest env1 errs1
  termination_by l _ _ => (sizeOf l, 0)
  decreasing_by all_goals (simp [Prod.lex_iff]; try omega)

/-- The `FunctionDecl` body loop: a `ReturnStatement` with a value has its
type compared against the declared return type; other statements are
checked normally. -/
def checkFnBody (comps : Components) (fname : String) (retTy : Option String) :
    List ASTNode → TypeEnv → List String → TypeEnv × List String
  | [], env, errs => (env, errs)
  | .returnStatement (some v) :: rest, env, errs =>
    let (rt, env1, errs1) := checkNode comps v env errs
    let expected := parseTypeAnn retTy
    let errs2 :=
      if ¬isCompatible rt expected then
        errs1 ++ [typeErr ("Function " ++ fname ++ " returns " ++
          typeToString rt ++ " but expected " ++ typeToString expected)]
      else errs1
    checkFnBody comps fname retTy rest env1 errs2
  | .returnStatement none :: rest, env, errs =>
    checkFnBody comps fname retTy rest env errs
  | stmt :: rest, env, errs =>
    let (_, env1, errs1) := checkNode comps stmt env errs
    checkFnBody comps fname retTy rest env1 errs1
  termination_by l _ _ => (sizeOf l, 0)
  decreasing_by all_goals (simp [Prod.lex_iff]; try omega)

/-- The `CallExpr` argument loop (runs over the common prefix; `i` is the
1-based argument number used in messages). -/
def checkCallArgs (comps : Components) (i : Nat) :
    List LuminaType → List ASTNode → TypeEnv → List String →
    TypeEnv × List String
  | _, [], env, errs => (env, errs)
  | [], _ :: _, env, errs => (env, errs)
  | p :: ps, a :: as, env, errs =>
    let (at_, env1, errs1) := checkNode comps a env errs
    let errs2 :=
      if ¬isCompatible at_ p then
        errs1 ++ [typeErr ("Argument " ++ toString i ++ " expects " ++
          typeToString p ++ " but got " ++ typeToString at_)]
      else errs1
    checkCallArgs comps (i + 1) ps as env1 errs2
  termination_by _ l _ _ => (sizeOf l, 0)
  decreasing_by all_goals (simp [Prod.lex_iff]; try omega)

/-- The `ObjectLiteral` property loop, building the properties map. -/
def checkObjProps (comps : Components) :
    List (String × ASTNode) → List (String × LuminaType) → TypeEnv →
    List String → List (String × LuminaType) × TypeEnv × List String
  | [], acc, env, errs => (acc, env, errs)
  | (k, v) :: rest, acc, env, errs =>
    let (t, env1, errs1) := checkNode comps v env errs
    checkObjProps comps rest (mapSet acc k t) env1 errs1
  termination_by l _ _ _ => (sizeOf l, 0)
  decreasing_by all_goals (simp [Prod.lex_iff]; try omega)

/-- The `ComponentInstance` prop loop: for each declared prop (in
declaration order) the first provided prop of that name is checked. -/
def checkInstProps (comps : Components) (compName : String) :
    List (String × LuminaType) → List (String × ASTNode) → TypeEnv →
    List String → TypeEnv × List String
  | [], _, env, errs => (env, errs)
  | (propName, propType) :: restProps, nodeProps, env, errs =>
    let (env1, errs1) :=
      checkFoundProp comps compName propName propType nodeProps env errs
    checkInstProps comps compName restProps nodeProps env1 errs1
  termination_by cp np _ _ => (sizeOf np, cp.length + 1)
  decreasing_by all_goals (simp [Prod.lex_iff]; try omega)

/-- `node.props.find(p => p.name === propName)` fused with the check of
the found prop's value: scan for the first prop with the given name; if
none is provided nothing is checked. -/
def checkFoundProp (comps : Components) (compName propName : String)
    (propType : LuminaType) :
    List (String × ASTNode) → TypeEnv → List String → TypeEnv × List String
  | [], env, errs => (env, errs)
  | (n, v) :: rest, env, errs =>
    if n = propName then
      let (vt, env1, errs1) := checkNode comps v env errs
      let errs2 :=
        if ¬isCompatible vt propType then
          errs1 ++ [typeErr ("Component " ++ compName ++ " prop " ++ propName ++
            " expects " ++ typeToString propType ++ " but got " ++
            typeToString vt)]
        else errs1
      (env1, errs2)
    else checkFoundProp comps compName propName propType rest env errs
  termination_by l _ _ => (sizeOf l, 0)
  decreasing_by all_goals (simp [Prod.lex_iff]; try omega)

end

/-- First pass of `TypeChecker.check`: collect component and function
signatures into the registry and the global bindings. -/
def firstPass : Components → List (String × LuminaType) → List ASTNode →
    Components × List (String × LuminaType)
  | comps, bindings, [] => (comps, bindings)
  | comps, bindings, node :: rest =>
    match node with
    | .componentDecl name params _ =>
      let props := paramBindings params
      firstPass (mapSet comps name props)
        (mapSet bindings name (.component props)) rest
    | .functionDecl name params retTy _ =>
      let paramTypes := params.map (fun p => parseTypeAnn p.2.1)
      firstPass comps
        (mapSet bindings name (.function paramTypes (parseTypeAnn retTy))) rest
    | _ => firstPass comps bindings rest

/-- The `{success, errors}` result of `TypeChecker.check`. -/
structure CheckResult where
  success : Bool
  errors : List String
  deriving DecidableEq, Repr

/-- `TypeChecker.check` on a `Program` body: `this.errors` is reset to
empty, but the component registry `comps0` (the instance's
`this.components`) is carried in and only ever added to; the updated
registry is returned alongside the result. -/
def check (comps0 : Components) (programBody : List ASTNode) :
    CheckResult × Components :=
  let (comps1, gbindings) := firstPass comps0 [] programBody
  let globalEnv : TypeEnv := .mk gbindings none
  let (_, errs) := checkNodes comps1 programBody globalEnv []
  (⟨errs.isEmpty, errs⟩, comps1)

/-- A `TypeChecker` instance's mutable state: the diagnostics array and
the component registry. -/
structure TCState where
  errors : List String
  components : Components

/-- One `check` call on an instance: the result, plus the instance state
afterwards (errors replaced, registry extended and kept). -/
def checkInst (st : TCState) (programBody : List ASTNode) :
    CheckResult × TCState :=
  let (res, comps1) := check st.components programBody
  (res, ⟨res.errors, comps1⟩)

/-- A fresh instance (`new TypeChecker().check(p)`), as `compile` does. -/
def checkFresh (programBody : List ASTNode) : CheckResult :=
  (check [] programBody).1

-- ── Code Generator (`src/codegen`, file `part_003`) ─────────────────────

/-- The TypeScript `type` tag of each AST variant (used by the generator's
fallback `/* unknown: ... */` comment). -/
def nodeTypeName : ASTNode → String
  | .program _ => "Program"
  | .componentDecl .. => "ComponentDecl"
  | .functionDecl .. => "FunctionDecl"
  | .variableDecl .. => "VariableDecl"
  | .stateDecl .. => "StateDecl"
  | .effectDecl .. => "EffectDecl"
  | .styleDecl .. => "StyleDecl"
  | .returnStatement _ => "ReturnStatement"
  | .ifStatement .. => "IfStatement"
  | .forStatement .. => "ForStatement"
  | .expressionStatement _ => "ExpressionStatement"
  | .blockStatement _ => "BlockStatement"
  | .uiElement .. => "UIElement"
  | .uiText _ => "UIText"
  | .uiExpression _ => "UIExpression"
  | .componentInstance .. => "ComponentInstance"
  | .binaryExpr .. => "BinaryExpr"
  | .unaryExpr .. => "UnaryExpr"
  | .callExpr .. => "CallExpr"
  | .memberExpr .. => "MemberExpr"
  | .assignExpr .. => "AssignExpr"
  | .arrowFunction .. => "ArrowFunction"
  | .arrayLiteral _ => "ArrayLiteral"
  | .objectLiteral _ => "ObjectLiteral"
  | .identifier _ => "Identifier"
  | .numberLiteral _ => "NumberLiteral"
  | .stringLiteral _ => "StringLiteral"
  | .booleanLiteral _ => "BooleanLiteral"
  | .nullLiteral => "NullLiteral"
  | .templateLiteral _ => "TemplateLiteral"
  | .conditionalExpr .. => "ConditionalExpr"
  | .pipeExpr .. => "PipeExpr"
  | .importDecl .. => "ImportDecl"
  | .exportDecl _ => "ExportDecl"
  | .eventHandler .. => "EventHandler"

/-- One character of `JSON.stringify`'s string escaping. -/
def jsonEscapeChar (c : Char) : List Char :=
  if c = '"' then ['\\', '"']
  else if c = '\\' then ['\\', '\\']
  else if c = '\n' then ['\\', 'n']
  else if c = '\r' then ['\\', 'r']
  else if c = '\t' then ['\\', 't']
  else if c = '\x08' then ['\\', 'b']
  else if c = '\x0c' then ['\\', 'f']
  else if c.toNat < 0x20 then
    let hex := fun (n : Nat) =>
      if n < 10 then Char.ofNat ('0'.toNat + n) else Char.ofNat ('a'.toNat + n - 10)
    ['\\', 'u', '0', '0', hex (c.toNat / 16), hex (c.toNat % 16)]
  else [c]

/-- `JSON.stringify` on a string value. -/
def jsonStringify (s : String) : String :=
  "\"" ++ String.mk (s.data.flatMap jsonEscapeChar) ++ "\""

/-- `CodeGenerator.camelToKebab`:
`str.replace(/([A-Z])/g, '-$1').toLowerCase()`. -/
def camelToKebab (s : String) : String :=
  String.mk (s.data.flatMap fun c =>
    if 'A' ≤ c ∧ c ≤ 'Z' then ['-', c.toLower] else [c.toLower])

/-- The generator's component registry (`Map<string, boolean>`). -/
abbrev CompReg := List (String × Bool)

mutual

/-- `CodeGenerator.genExpr` (pure: reads only the component registry,
which decides whether a call is rewritten to a props-object call). -/
def genExpr (comps : CompReg) : ASTNode → String
  | .numberLiteral v => v
  | .stringLiteral v => jsonStringify v
  | .booleanLiteral b => if b then "true" else "false"
  | .nullLiteral => "null"
  | .identifier n => n
  | .binaryExpr op l r =>
    "(" ++ genExpr comps l ++ " " ++ op ++ " " ++ genExpr comps r ++ ")"
  | .unaryExpr op o => op ++ genExpr comps o
  | .callExpr callee args =>
    let calleeS := genExpr comps callee
    let argsS := String.intercalate ", " (genExprList comps args)
    if (mapGet comps calleeS).isSome then calleeS ++ "(\x7b" ++ argsS ++ "\x7d)"
    else calleeS ++ "(" ++ argsS ++ ")"
  | .memberExpr obj prop computed idx =>
    if computed then
      genExpr comps obj ++ "[" ++
        (match idx with
         | some i => genExpr comps i
         | none => "undefined") ++ "]"
    else genExpr comps obj ++ "." ++ prop
  | .assignExpr t v => genExpr comps t ++ " = " ++ genExpr comps v
  | .arrowFunction params body =>
    let ps := String.intercalate ", " (params.map (·.1))
    match body with
    | .inl stmts =>
      "(" ++ ps ++ ") => \x7b\n" ++
        String.intercalate "\n" (genStmtList comps stmts) ++ "\n\x7d"
    | .inr e => "(" ++ ps ++ ") => " ++ genExpr comps e
  | .arrayLiteral elems =>
    "[" ++ String.intercalate ", " (genExprList comps elems) ++ "]"
  | .objectLiteral props =>
    "\x7b" ++ String.intercalate ", " (genObjPropList comps props) ++ "\x7d"
  | .conditionalExpr c t e =>
    "(" ++ genExpr comps c ++ " ? " ++ genExpr comps t ++ " : " ++
      genExpr comps e ++ ")"
  | .pipeExpr l r => genExpr comps r ++ "(" ++ genExpr comps l ++ ")"
  | .templateLiteral parts =>
    "`" ++ String.join (genTemplateParts comps parts) ++ "`"
  | n => "/* unknown: " ++ nodeTypeName n ++ " */"
  termination_by n => (sizeOf n, 0)
  decreasing_by all_goals (simp [Prod.lex_iff]; try omega)

def genExprList (comps : CompReg) : List ASTNode → List String
  | [] => []
  | e :: rest => genExpr comps e :: genExprList comps rest
  termination_by l => (sizeOf l, 0)
  decreasing_by all_goals (simp [Prod.lex_iff]; try omega)

def genObjPropList (comps : CompReg) : List (String × ASTNode) → List String
  | [] => []
  | (k, v) :: rest => (k ++ ": " ++ genExpr comps v) :: genObjPropList comps rest
  termination_by l => (sizeOf l, 0)
  decreasing_by all_goals (simp [Prod.lex_iff]; try omega)

def genTemplateParts (comps : CompReg) : List (String ⊕ ASTNode) → List String
  | [] => []
  | .inl s :: rest => s :: genTemplateParts comps rest
  | .inr e :: rest =>
    ("$\x7b" ++ genExpr comps e ++ "\x7d") :: genTemplateParts comps rest
  termination_by l => (sizeOf l, 0)
  decreasing_by all_goals (simp [Prod.lex_iff]; try omega)

/-- `CodeGenerator.genStatement`. -/
def genStatement (comps : CompReg) : ASTNode → String
  | .variableDecl name mutFlag tyAnn value =>
    genVariable comps (.variableDecl name mutFlag tyAnn value)
  | .functionDecl name params retTy body =>
    genFunction comps (.functionDecl name params retTy body)
  | .returnStatement (some v) => "return " ++ genExpr comps v ++ ";"
  | .returnStatement none => "return;"
  | .ifStatement c t e => genIf comps (.ifStatement c t e)
  | .forStatement v i b => genForStatement comps (.forStatement v i b)
  | .expressionStatement e => genExpr comps e ++ ";"
  | .blockStatement body =>
    "\x7b\n" ++ String.intercalate "\n" (genStmtList comps body) ++ "\n\x7d"
  | n => genExpr comps n ++ ";"
  termination_by n => (sizeOf n, 3)
  decreasing_by all_goals (simp [Prod.lex_iff]; try omega)

def genStmtList (comps : CompReg) : List ASTNode → List String
  | [] => []
  | s :: rest => genStatement comps s :: genStmtList comps rest
  termination_by l => (sizeOf l, 2)
  decreasing_by all_goals (simp [Prod.lex_iff]; try omega)

/-- `CodeGenerator.genVariable`. -/
def genVariable (comps : CompReg) : ASTNode → String
  | .variableDecl name mutFlag _ value =>
    let keyword := if mutFlag then "let" else "const"
    keyword ++ " " ++ name ++ " = " ++ genExpr comps value ++ ";"
  | _ => ""
  termination_by n => (sizeOf n, 0)
  decreasing_by all_goals (simp [Prod.lex_iff]; try omega)

/-- `CodeGenerator.genFunction` (note the two-space indentation baked into
the template). -/
def genFunction (comps : CompReg) : ASTNode → String
  | .functionDecl name params _ body =>
    let ps := String.intercalate ", " (genFnParams comps params)
    let bodyS := String.intercalate "\n"
      ((genStmtList comps body).map ("    " ++ ·))
    "  function " ++ name ++ "(" ++ ps ++ ") \x7b\n" ++ bodyS ++ "\n  \x7d"
  | _ => ""
  termination_by n => (sizeOf n, 1)
  decreasing_by all_goals (simp [Prod.lex_iff]; try omega)

def genFnParams (comps : CompReg) :
    List (String × Option String × Option ASTNode) → List String
  | [] => []
  | (name, _, some dv) :: rest =>
    (name ++ " = " ++ genExpr comps dv) :: genFnParams comps rest
  | (name, _, none) :: rest => name :: genFnParams comps rest
  termination_by l => (sizeOf l, 0)
  decreasing_by all_goals (simp [Prod.lex_iff]; try omega)

/-- `CodeGenerator.genIf`. -/
def genIf (comps : CompReg) : ASTNode → String
  | .ifStatement condition consequent alternate =>
    let cond := genExpr comps condition
    let body := String.intercalate "\n" (genStmtList comps consequent)
    let code := "if (" ++ cond ++ ") \x7b\n" ++ body ++ "\n\x7d"
    match alternate with
    | some alt =>
      code ++ " else \x7b\n" ++
        String.intercalate "\n" (genStmtList comps alt) ++ "\n\x7d"
    | none => code
  | _ => ""
  termination_by n => (sizeOf n, 1)
  decreasing_by all_goals (simp [Prod.lex_iff]; try omega)

/-- `CodeGenerator.genForStatement`. -/
def genForStatement (comps : CompReg) : ASTNode → String
  | .forStatement varName iterable body =>
    "for (const " ++ varName ++ " of " ++ genExpr comps iterable ++
      ") \x7b\n" ++ String.intercalate "\n" (genStmtList comps body) ++ "\n\x7d"
  | _ => ""
  termination_by n => (sizeOf n, 1)
  decreasing_by all_goals (simp [Prod.lex_iff]; try omega)

end

/-- A `CodeGenerator` instance's mutable state.  `components` and `styles`
are the two registries; `rnd`/`ctr` model the stream of five-character
names that `Math.random().toString(36).slice(2, 7)` produces inside
`genUIElement` — the only nondeterminism in the generator.  (The source's
`indent` and `globalStatements` fields are declared but never used.) -/
structure GenSt where
  components : CompReg
  styles : List (String × String)
  rnd : Nat → String
  ctr : Nat

/-- `childCode.match(/const (\w+)/)?.[1] || ''`: the first `const `-named
word of a generated chunk (generated chunks always begin with
`const __e...`). -/
def firstConstWordGo : List Char → String
  | 'c' :: 'o' :: 'n' :: 's' :: 't' :: ' ' :: rest =>
    String.mk (rest.takeWhile isAlphaNumeric)
  | _ :: rest => firstConstWordGo rest
  | [] => ""

def firstConstWord (s : String) : String := firstConstWordGo s.data

/-- `CodeGenerator.genStyleValue`: numbers get a `px` suffix, strings
pass through verbatim, everything else lowers as an expression. -/
def genStyleValue (comps : CompReg) : ASTNode → String
  | .numberLiteral v => v ++ "px"
  | .stringLiteral v => v
  | n => genExpr comps n

/-- `CodeGenerator.genStyleDecl`: emits one CSS rule block with selector
`.lumina-<name-or-default>` and one kebab-cased line per property, and
registers the class name in the style registry. -/
def genStyleDecl (st : GenSt) (name : Option String)
    (properties : List (String × ASTNode)) : String × GenSt :=
  let nm := name.getD "default"
  let props := String.intercalate "\n" (properties.map fun p =>
    "  " ++ camelToKebab p.1 ++ ": " ++ genStyleValue st.components p.2 ++ ";")
  let className := "lumina-" ++ nm
  ("." ++ className ++ " \x7b\n" ++ props ++ "\n\x7d",
    { st with styles := mapSet st.styles nm className })

/-- `CodeGenerator.genStateDecl`: a local binding plus a property
descriptor whose setter re-invokes `__render`. -/
def genStateDecl (comps : CompReg) (name : String) (value : ASTNode) : String :=
  let initVal := genExpr comps value
  "  let " ++ name ++ " = " ++ initVal ++ ";\n" ++
  "  Object.defineProperty(__state, '" ++ name ++ "', \x7b\n" ++
  "    get() \x7b return " ++ name ++ "; \x7d,\n" ++
  "    set(v) \x7b " ++ name ++ " = v; __render(); \x7d\n" ++
  "  \x7d);"

/-- `CodeGenerator.genEffect`: the body runs once, wrapped in an IIFE. -/
def genEffect (comps : CompReg) (body : List ASTNode) : String :=
  let bodyS := String.intercalate "\n" (genStmtList comps body)
  "      // effect\n      (function() \x7b " ++ bodyS ++ " \x7d)();"

/-- `attr.name.startsWith('@')`: a single-character prefix test on the
first character. -/
def startsWithAt (s : String) : Bool :=
  match s.data with
  | c :: _ => c = '@'
  | [] => false

/-- The attribute loop of `CodeGenerator.genUIElement`, in source order
(event sigil, `class`, object `style`, generic and boolean attributes).
A value-less `@`-attribute reaches `this.genExpr(attr.value)` with
`attr.value === null`; `genExpr` immediately reads `node.type`, so the
TypeScript throws a `TypeError` — the `Except.error` case here. -/
def genUIAttrs (comps : CompReg) (varName : String) :
    List (String × Option ASTNode) → Except String String
  | [] => .ok ""
  | attr :: rest =>
    if startsWithAt attr.1 then
      match attr.2 with
      | none =>
        .error "TypeError: Cannot read properties of null (reading 'type')"
      | some v =>
        let event := attr.1.drop 1
        let handler := genExpr comps v
        (genUIAttrs comps varName rest).map
          (fun restCode => "    " ++ varName ++ ".addEventListener('" ++ event ++
            "', function(e) \x7b " ++ handler ++ "(e); __render(); \x7d);\n" ++
            restCode)
    else
      let code :=
        match attr.2 with
        | some v =>
          let val := genExpr comps v
          if attr.1 = "class" then
            "    " ++ varName ++ ".className = " ++ val ++ ";\n"
          else if attr.1 = "style" ∧ nodeTypeName v = "ObjectLiteral" then
            "    Object.assign(" ++ varName ++ ".style, " ++ val ++ ");\n"
          else
            "    " ++ varName ++ ".setAttribute('" ++ attr.1 ++ "', " ++
              val ++ ");\n"
        | none =>
          "    " ++ varName ++ ".setAttribute('" ++ attr.1 ++ "', '');\n"
      (genUIAttrs comps varName rest).map (code ++ ·)

mutual

/-- `CodeGenerator.genUIElement`: creates a DOM element under a freshly
(randomly) named local, lowers attributes and children, then appends to
`__fragment`.  A value-less `@`-attribute makes the TypeScript throw (see
`genUIAttrs`); the throw propagates as the `Except.error` case. -/
def genUIElement (st : GenSt) : ASTNode → Except String (String × GenSt)
  | .uiElement tag attributes children _ =>
    let varName := "__e" ++ st.rnd st.ctr
    let st1 : GenSt := { st with ctr := st.ctr + 1 }
    let code0 := "const " ++ varName ++ " = document.createElement('" ++
      tag ++ "');\n"
    match genUIAttrs st.components varName attributes with
    | .error e => .error e
    | .ok attrCode =>
      match genUIChildren st1 varName children with
      | .error e => .error e
      | .ok (childCode, st2) =>
        .ok (code0 ++ attrCode ++ childCode ++
          "    __fragment.appendChild(" ++ varName ++ ");", st2)
  | _ => .ok ("", st)

/-- The children loop of `genUIElement`. -/
def genUIChildren (st : GenSt) (varName : String) :
    List ASTNode → Except String (String × GenSt)
  | [] => .ok ("", st)
  | child :: rest =>
    let step : Except String (String × GenSt) :=
      match child with
      | .uiText v =>
        .ok ("    " ++ varName ++ ".appendChild(document.createTextNode(" ++
          jsonStringify v ++ "));\n", st)
      | .uiExpression e =>
        .ok ("    " ++ varName ++ ".appendChild(document.createTextNode(String(" ++
          genExpr st.components e ++ ")));\n", st)
      | .uiElement _ _ _ _ =>
        match genUIElement st child with
        | .error e => .error e
        | .ok (childCode, st') =>
          let childVar := firstConstWord childCode
          .ok ("    " ++ childCode ++ "\n    " ++ varName ++ ".appendChild(" ++
            childVar ++ ");\n", st')
      | .ifStatement _ _ _ => genUIConditional st varName child
      | .forStatement _ _ _ => genUILoop st varName child
      | _ => .ok ("", st)
    match step with
    | .error e => .error e
    | .ok (code, st1) =>
      match genUIChildren st1 varName rest with
      | .error e => .error e
      | .ok (restCode, st2) => .ok (code ++ restCode, st2)

/-- `CodeGenerator.genUIConditional`: an `if` block among UI children
(the `else` branch lowers only elements and text, not expressions). -/
def genUIConditional (st : GenSt) (parentVar : String) :
    ASTNode → Except String (String × GenSt)
  | .ifStatement condition consequent alternate =>
    let cond := genExpr st.components condition
    match genUICondChildren st parentVar consequent with
    | .error e => .error e
    | .ok (consCode, st1) =>
      let code := "    if (" ++ cond ++ ") \x7b\n" ++ consCode ++ "    \x7d"
      match
        (match alternate with
         | some alt =>
           match genUIAltChildren st1 parentVar alt with
           | .error e => .error e
           | .ok (altCode, st') =>
             .ok (code ++ " else \x7b\n" ++ altCode ++ "    \x7d", st')
         | none => .ok (code, st1) : Except String (String × GenSt))
      with
      | .error e => .error e
      | .ok (code2, st2) => .ok (code2 ++ "\n", st2)
  | _ => .ok ("", st)

def genUICondChildren (st : GenSt) (parentVar : String) :
    List ASTNode → Except String (String × GenSt)
  | [] => .ok ("", st)
  | child :: rest =>
    let step : Except String (String × GenSt) :=
      match child with
      | .uiElement _ _ _ _ =>
        match genUIElement st child with
        | .error e => .error e
        | .ok (childCode, st') =>
          let childVar := firstConstWord childCode
          .ok ("      " ++ childCode ++ "\n      " ++ parentVar ++
            ".appendChild(" ++ childVar ++ ");\n", st')
      | .uiExpression e =>
        .ok ("      " ++ parentVar ++
          ".appendChild(document.createTextNode(String(" ++
          genExpr st.components e ++ ")));\n", st)
      | .uiText v =>
        .ok ("      " ++ parentVar ++ ".appendChild(document.createTextNode(" ++
          jsonStringify v ++ "));\n", st)
      | _ => .ok ("", st)
    match step with
    | .error e => .error e
    | .ok (code, st1) =>
      match genUICondChildren st1 parentVar rest with
      | .error e => .error e
      | .ok (restCode, st2) => .ok (code ++ restCode, st2)

/-- The `else` branch loop (no `UIExpression` case, as in the source). -/
def genUIAltChildren (st : GenSt) (parentVar : String) :
    List ASTNode → Except String (String × GenSt)
  | [] => .ok ("", st)
  | child :: rest =>
    let step : Except String (String × GenSt) :=
      match child with
      | .uiElement _ _ _ _ =>
        match genUIElement st child with
        | .error e => .error e
        | .ok (childCode, st') =>
          let childVar := firstConstWord childCode
          .ok ("      " ++ childCode ++ "\n      " ++ parentVar ++
            ".appendChild(" ++ childVar ++ ");\n", st')
      | .uiText v =>
        .ok ("      " ++ parentVar ++ ".appendChild(document.createTextNode(" ++
          jsonStringify v ++ "));\n", st)
      | _ => .ok ("", st)
    match step with
    | .error e => .error e
    | .ok (code, st1) =>
      match genUIAltChildren st1 parentVar rest with
      | .error e => .error e
      | .ok (restCode, st2) => .ok (code ++ restCode, st2)

/-- `CodeGenerator.genUILoop`: a `for` block among UI children (elements
and expressions only). -/
def genUILoop (st : GenSt) (parentVar : String) :
    ASTNode → Except String (String × GenSt)
  | .forStatement varName iterable body =>
    let iter := genExpr st.components iterable
    match genUILoopChildren st parentVar body with
    | .error e => .error e
    | .ok (bodyCode, st1) =>
      .ok ("    for (const " ++ varName ++ " of " ++ iter ++ ") \x7b\n" ++
        bodyCode ++ "    \x7d\n", st1)
  | _ => .ok ("", st)

def genUILoopChildren (st : GenSt) (parentVar : String) :
    List ASTNode → Except String (String × GenSt)
  | [] => .ok ("", st)
  | child :: rest =>
    let step : Except String (String × GenSt) :=
      match child with
      | .uiElement _ _ _ _ =>
        match genUIElement st child with
        | .error e => .error e
        | .ok (childCode, st') =>
          let childVar := firstConstWord childCode
          .ok ("      " ++ childCode ++ "\n      " ++ parentVar ++
            ".appendChild(" ++ childVar ++ ");\n", st')
      | .uiExpression e =>
        .ok ("      " ++ parentVar ++
          ".appendChild(document.createTextNode(String(" ++
          genExpr st.components e ++ ")));\n", st)
      | _ => .ok ("", st)
    match step with
    | .error e => .error e
    | .ok (code, st1) =>
      match genUILoopChildren st1 parentVar rest with
      | .error e => .error e
      | .ok (restCode, st2) => .ok (code ++ restCode, st2)

end

/-- Accumulator of `genComponent`'s body loop (the five per-kind string
lists; `renderBody` is the last lowered `UIElement`, if any). -/
structure CompAcc where
  states : List String
  effects : List String
  functions : List String
  styles : List String
  renderBody : String

/-- Body loop of `CodeGenerator.genComponent`: classify members in
source order.  Note a nested `StyleDecl` is lowered (and registers its
class name) but the resulting CSS text only joins the local `styles`
accumulator, which the emitted template never uses — nested styles thus
produce no CSS output. -/
def genCompBody (st : GenSt) (acc : CompAcc) :
    List ASTNode → Except String (CompAcc × GenSt)
  | [] => .ok (acc, st)
  | child :: rest =>
    match child with
    | .stateDecl name _ value =>
      genCompBody st
        { acc with states := acc.states ++ [genStateDecl st.components name value] }
        rest
    | .effectDecl _ body =>
      genCompBody st
        { acc with effects := acc.effects ++ [genEffect st.components body] } rest
    | .functionDecl n p r b =>
      genCompBody st
        { acc with functions :=
            acc.functions ++ [genFunction st.components (.functionDecl n p r b)] }
        rest
    | .styleDecl name props =>
      let (css, st1) := genStyleDecl st name props
      genCompBody st1 { acc with styles := acc.styles ++ [css] } rest
    | .uiElement t a c sc =>
      match genUIElement st (.uiElement t a c sc) with
      | .error e => .error e
      | .ok (rb, st1) => genCompBody st1 { acc with renderBody := rb } rest
    | .variableDecl n m ty v =>
      genCompBody st
        { acc with functions :=
            acc.functions ++ [genVariable st.components (.variableDecl n m ty v)] }
        rest
    | other =>
      genCompBody st
        { acc with functions := acc.functions ++ [genStatement st.components other] }
        rest

/-- `CodeGenerator.genComponent`: the emitted per-component function
(parameter bindings with default fallbacks, state descriptors, nested
functions, the `__render` closure rebuilding the subtree, and first-render
effects). -/
def genComponent (st : GenSt) (name : String)
    (params : List (String × Option String × Option ASTNode))
    (body : List ASTNode) : Except String (String × GenSt) :=
  match genCompBody st ⟨[], [], [], [], ""⟩ body with
  | .error e => .error e
  | .ok (acc, st1) =>
  let defaultParams := String.intercalate "\n"
    ((params.filter fun p => p.2.2.isSome).map fun p =>
      "  " ++ p.1 ++ " = " ++ p.1 ++ " !== undefined ? " ++ p.1 ++ " : " ++
        (match p.2.2 with
         | some dv => genExpr st.components dv
         | none => "") ++ ";")
  .ok ("function " ++ name ++ "(props) \x7b\n" ++
   "  const __el = document.createElement('div');\n" ++
   "  __el.setAttribute('data-component', '" ++ name ++ "');\n" ++
   "  const __state = \x7b\x7d;\n" ++
   "  let __mounted = false;\n\n  " ++
   String.intercalate "\n  "
     (params.map fun p => "let " ++ p.1 ++ " = props." ++ p.1 ++ ";") ++ "\n" ++
   defaultParams ++ "\n\n" ++
   String.intercalate "\n" acc.states ++ "\n\n" ++
   String.intercalate "\n\n" acc.functions ++ "\n\n" ++
   "  function __render() \x7b\n" ++
   "    __el.innerHTML = '';\n" ++
   "    const __fragment = document.createDocumentFragment();\n" ++
   "    " ++ acc.renderBody ++ "\n" ++
   "    __el.appendChild(__fragment);\n" ++
   "    if (!__mounted) \x7b\n" ++
   "      __mounted = true;\n" ++
   String.intercalate "\n" acc.effects ++ "\n" ++
   "    \x7d\n" ++
   "  \x7d\n\n" ++
   "  __render();\n" ++
   "  return __el;\n" ++
   "\x7d", st1)

/-- `CodeGenerator.wrapRuntime`. -/
def wrapRuntime (js : String) : String :=
  "// Lumina Runtime v0.1\n// Generated by Lumina Transpiler\n\n" ++ js

/-- `CodeGenerator.generateHTML`: fixed document shape embedding the CSS
and JS, auto-mounting the first registered component into `#app`. -/
def generateHTML (comps : CompReg) (js css : String) : String :=
  let firstComponent := ((comps.head?).map (·.1)).getD ""
  "<!DOCTYPE html>\n" ++
  "<html lang=\"en\">\n" ++
  "<head>\n" ++
  "  <meta charset=\"UTF-8\">\n" ++
  "  <meta name=\"viewport\" content=\"width=device-width, initial-scale=1.0\">\n" ++
  "  <title>Lumina App</title>\n" ++
  "  <style>\n" ++
  "    * \x7b margin: 0; padding: 0; box-sizing: border-box; \x7d\n" ++
  "    body \x7b font-family: -apple-system, BlinkMacSystemFont, 'Segoe UI', sans-serif; \x7d\n" ++
  (if css ≠ "" then
    String.intercalate "\n" ((css.splitOn "\n").map ("    " ++ ·))
   else "") ++ "\n" ++
  "  </style>\n" ++
  "</head>\n" ++
  "<body>\n" ++
  "  <div id=\"app\"></div>\n" ++
  "  <script>\n" ++
  js ++ "\n\n" ++
  "// Auto-mount\n" ++
  (if firstComponent ≠ "" then
    "document.getElementById('app').appendChild(" ++ firstComponent ++
      "(\x7b\x7d));"
   else "") ++ "\n" ++
  "  </script>\n" ++
  "</body>\n" ++
  "</html>"

/-- The three output strings of `CodeGenerator.generate`. -/
structure GenOut where
  html : String
  js : String
  css : String
  deriving DecidableEq, Repr

/-- Top-level loop of `CodeGenerator.generate`: lower each top-level node
into a JS chunk, except `StyleDecl`s which go to the CSS chunks (only
top-level ones reach the CSS).  A `ComponentDecl` registers its name
before lowering. -/
def generateLoop (st : GenSt) (jsChunks cssChunks : List String) :
    List ASTNode → Except String (List String × List String × GenSt)
  | [] => .ok (jsChunks, cssChunks, st)
  | node :: rest =>
    match node with
    | .componentDecl name params body =>
      let st1 : GenSt :=
        { st with components := mapSet st.components name true }
      match genComponent st1 name params body with
      | .error e => .error e
      | .ok (chunk, st2) =>
        generateLoop st2 (jsChunks ++ [chunk]) cssChunks rest
    | .styleDecl name props =>
      let (css, st1) := genStyleDecl st name props
      generateLoop st1 jsChunks (cssChunks ++ [css]) rest
    | .functionDecl n p r b =>
      generateLoop st (jsChunks ++ [genFunction st.components (.functionDecl n p r b)])
        cssChunks rest
    | .variableDecl n m ty v =>
      generateLoop st (jsChunks ++ [genVariable st.components (.variableDecl n m ty v)])
        cssChunks rest
    | other =>
      generateLoop st (jsChunks ++ [genStatement st.components other]) cssChunks rest

/-- `CodeGenerator.generate`: produce `{html, js, css}` (and the updated
instance state); a `TypeError` thrown while lowering a component body is
the `Except.error` case. -/
def generate (st : GenSt) (programBody : List ASTNode) :
    Except String (GenOut × GenSt) :=
  match generateLoop st [] [] programBody with
  | .error e => .error e
  | .ok (jsChunks, cssChunks, st1) =>
    let js := wrapRuntime (String.intercalate "\n\n" jsChunks)
    let css := String.intercalate "\n\n" cssChunks
    let html := generateHTML st1.components js css
    .ok (⟨html, js, css⟩, st1)

/-- A fresh generator instance whose random stream is `rnd` (`new
CodeGenerator().generate(p)`, with `Math.random` made explicit). -/
def generateFresh (rnd : Nat → String) (programBody : List ASTNode) :
    Except String GenOut :=
  (generate ⟨[], [], rnd, 0⟩ programBody).map Prod.fst

/-- `compile` from the main entry point: tokenize, parse, generate with
fresh instances (the type checker is not invoked by `compile`); a
generator `TypeError` propagates as an error. -/
def compile (rnd : Nat → String) (s : String) : Except String GenOut := do
  match ← lexParse s with
  | .program body => generateFresh rnd body
  | _ => .error "parse did not return a Program"

-- ── Lexer classification lemmas ──────────────────────────────────────────

/-- The identifier character class of the lexer: an alphabetic head
(underscore included) followed by alphanumerics. -/
def isIdentWord (s : String) : Bool :=
  match s.data with
  | [] => false
  | c :: cs => isAlpha c && cs.all isAlphaNumeric

theorem map_error {α : Type} {f : α → α} {e : Except String α} {m : String}
    (h : e.map f = .error m) : e = .error m := by
  cases e with
  | error _ => simpa [Except.map] using h
  | ok _ => simp [Except.map] at h

theorem map_cons_ok {e : Except String (List Token)} {tok : Token}
    {ts : List Token} (h : e.map (tok :: ·) = .ok ts) :
    ∃ ts', e = .ok ts' ∧ ts = tok :: ts' := by
  cases e with
  | error _ => simp [Except.map] at h
  | ok l => exact ⟨l, rfl, by simpa [Except.map] using h.symm⟩

theorem lexLoop_ident_step {P : Token → Prop} {e : Except String (List Token)}
    {tok : Token} {ts : List Token} (h : e.map (tok :: ·) = .ok ts)
    (he : ∀ ts', e = .ok ts' → ∀ t ∈ ts', P t) (htok : P tok) :
    ∀ t ∈ ts, P t := by
  obtain ⟨ts', hrec, rfl⟩ := map_cons_ok h
  intro t ht
  rcases List.mem_cons.1 ht with rfl | hmem
  · exact htok
  · exact he ts' hrec t hmem

theorem singleTok_ident {c : Char} {ty : TokenType} {v : String}
    (h : singleTok c = some (ty, v)) (hid : ty = .Identifier) : v = "?" := by
  rw [singleTok.eq_def] at h
  split at h <;> simp_all

theorem splitWhile_fst_all (p : Char → Bool) :
    ∀ r : List Char, (splitWhile p r).1.all p = true := by
  intro r
  induction r with
  | nil => simp [splitWhile]
  | cons c r ih =>
    simp only [splitWhile]
    split
    · next hp => simpa [hp] using ih
    · simp

theorem isIdentWord_of_splitWhile {ch : Char} {rest w r2 : List Char}
    (hal : isAlpha ch = true)
    (hsw : splitWhile isAlphaNumeric (ch :: rest) = (w, r2)) :
    isIdentWord (String.mk w) = true := by
  have hch : isAlphaNumeric ch = true := by simp [isAlphaNumeric, hal]
  simp only [splitWhile, hch, if_true, Prod.mk.injEq] at hsw
  obtain ⟨hw, -⟩ := hsw
  subst hw
  have hall := splitWhile_fst_all isAlphaNumeric rest
  simp [isIdentWord, hal, hall]

theorem skipWhitespace_col_ge :
    ∀ (r : List Char) (col : Nat), col ≤ (skipWhitespace r col).2 := by
  intro r
  induction r with
  | nil => intro col; simp [skipWhitespace]
  | cons c r ih =>
    intro col
    simp only [skipWhitespace]
    split
    · exact Nat.le_trans (Nat.le_succ _) (ih (col + 1))
    · simp

theorem skipLineComment_col_ge :
    ∀ (r : List Char) (col : Nat), col ≤ (skipLineComment r col).2 := by
  intro r
  induction r with
  | nil => intro col; simp [skipLineComment]
  | cons c r ih =>
    intro col
    simp only [skipLineComment]
    split
    · simp
    · exact Nat.le_trans (Nat.le_succ _) (ih (col + 1))

theorem strLoop_error :
    ∀ (r acc : List Char) (line col : Nat) (m : String),
      strLoop r acc line col = .error m →
      ∃ l, line ≤ l ∧ m = "Unterminated string at line " ++ toString l := by
  intro r acc line col
  induction r, acc, line, col using strLoop.induct with
  | case1 x line x1 =>
    intro m h
    simp only [strLoop, Except.error.injEq] at h
    exact ⟨line, Nat.le_refl _, h.symm⟩
  | case2 r acc line col => intro m h; simp [strLoop] at h
  | case3 acc line col =>
    intro m h
    simp only [strLoop, Except.error.injEq] at h
    exact ⟨line, Nat.le_refl _, h.symm⟩
  | case4 acc line col c r2 e ih =>
    intro m h
    simp only [strLoop] at h
    exact ih m h
  | case5 r acc line x ih =>
    intro m h
    simp only [strLoop] at h
    obtain ⟨l, hl, hm⟩ := ih m h
    exact ⟨l, Nat.le_trans (Nat.le_succ _) hl, hm⟩
  | case6 c r acc line col h1 h2 h3 ih =>
    intro m h
    rw [strLoop.eq_def] at h
    simp only [] at h
    exact ih m h

theorem templLoop_error :
    ∀ (r acc : List Char) (line col : Nat) (m : String),
      templLoop r acc line col = .error m →
      ∃ l, line ≤ l ∧
        m = "Unterminated template string at line " ++ toString l := by
  intro r acc line col
  induction r, acc, line, col using templLoop.induct with
  | case1 x line x1 =>
    intro m h
    simp only [templLoop, Except.error.injEq] at h
    exact ⟨line, Nat.le_refl _, h.symm⟩
  | case2 r acc line col => intro m h; simp [templLoop] at h
  | case3 r acc line x ih =>
    intro m h
    simp only [templLoop] at h
    obtain ⟨l, hl, hm⟩ := ih m h
    exact ⟨l, Nat.le_trans (Nat.le_succ _) hl, hm⟩
  | case4 c r acc line col h1 h2 ih =>
    intro m h
    rw [templLoop.eq_def] at h
    simp only [] at h
    exact ih m h

theorem blockLoop_error :
    ∀ (r : List Char) (line col : Nat) (m : String),
      blockLoop r line col = .error m →
      ∃ l, line ≤ l ∧
        m = "Unterminated block comment at line " ++ toString l := by
  intro r
  induction r with
  | nil =>
    intro line col m h
    simp only [blockLoop, Except.error.injEq] at h
    exact ⟨line, Nat.le_refl _, h.symm⟩
  | cons c1 r ih =>
    intro line col m h
    match r with
    | [] =>
      simp only [blockLoop, Except.error.injEq] at h
      exact ⟨line, Nat.le_refl _, h.symm⟩
    | c2 :: r2 =>
      simp only [blockLoop] at h
      split at h
      · exact Except.noConfusion h
      · obtain ⟨l, hl, hm⟩ := ih _ _ _ h
        refine ⟨l, ?_, hm⟩
        split at hl
        · exact Nat.le_trans (Nat.le_succ _) hl
        · exact hl

theorem strLoop_ok_line_col :
    ∀ (r acc : List Char) (line col : Nat)
      (out : String × List Char × Nat × Nat),
      strLoop r acc line col = .ok out →
      line ≤ out.2.2.1 ∧ 1 ≤ out.2.2.2 := by
  intro r acc line col
  induction r, acc, line, col using strLoop.induct with
  | case1 x line x1 => intro out h; simp [strLoop] at h
  | case2 r acc line col =>
    intro out h
    simp only [strLoop, Except.ok.injEq] at h
    subst h
    exact ⟨Nat.le_refl _, Nat.le_add_left 1 _⟩
  | case3 acc line col => intro out h; simp [strLoop] at h
  | case4 acc line col c r2 e ih =>
    intro out h
    simp only [strLoop] at h
    exact ih out h
  | case5 r acc line x ih =>
    intro out h
    simp only [strLoop] at h
    obtain ⟨h1, h2⟩ := ih out h
    exact ⟨Nat.le_trans (Nat.le_succ _) h1, h2⟩
  | case6 c r acc line col h1 h2 h3 ih =>
    intro out h
    rw [strLoop.eq_def] at h
    simp only [] at h
    exact ih out h

theorem templLoop_ok_line_col :
    ∀ (r acc : List Char) (line col : Nat)
      (out : String × List Char × Nat × Nat),
      templLoop r acc line col = .ok out →
      line ≤ out.2.2.1 ∧ 1 ≤ out.2.2.2 := by
  intro r acc line col
  induction r, acc, line, col using templLoop.induct with
  | case1 x line x1 => intro out h; simp [templLoop] at h
  | case2 r acc line col =>
    intro out h
    simp only [templLoop, Except.ok.injEq] at h
    subst h
    exact ⟨Nat.le_refl _, Nat.le_add_left 1 _⟩
  | case3 r acc line x ih =>
    intro out h
    simp only [templLoop] at h
    obtain ⟨h1, h2⟩ := ih out h
    exact ⟨Nat.le_trans (Nat.le_succ _) h1, h2⟩
  | case4 c r acc line col h1 h2 ih =>
    intro out h
    rw [templLoop.eq_def] at h
    simp only [] at h
    exact ih out h

theorem blockLoop_ok_line_col :
    ∀ (r : List Char) (line col : Nat) (out : List Char × Nat × Nat),
      blockLoop r line col = .ok out →
      line ≤ out.2.1 ∧ 1 ≤ out.2.2 := by
  intro r
  induction r with
  | nil => intro line col out h; simp [blockLoop] at h
  | cons c1 r ih =>
    intro line col out h
    match r with
    | [] => simp [blockLoop] at h
    | c2 :: r2 =>
      simp only [blockLoop] at h
      split at h
      · cases h
        refine ⟨?_, Nat.le_trans (by omega) (Nat.le_add_left 2 _)⟩
        split
        · exact Nat.le_succ _
        · exact Nat.le_refl _
      · obtain ⟨h1, h2⟩ := ih _ _ _ h
        refine ⟨?_, h2⟩
        split at h1
        · exact Nat.le_trans (Nat.le_succ _) h1
        · exact h1

/-- Every token in a successful `lexLoop` run whose kind is `Identifier`
has literal text `?` (the `?` operator-case) or matches the identifier
word class (the `isAlpha`-led branch): no other branch emits that kind. -/
theorem lexLoop_ident :
    ∀ (fuel : Nat) (r : List Char) (line col : Nat) (ts : List Token),
      lexLoop fuel r line col = .ok ts →
      ∀ t ∈ ts, t.type = .Identifier →
        t.value = "?" ∨ isIdentWord t.value = true := by
  intro fuel
  induction fuel with
  | zero =>
    intro r line col ts h
    simp [lexLoop] at h
  | succ f ih =>
    intro r line col ts h
    simp only [lexLoop] at h
    rcases hws : skipWhitespace r col with ⟨r1, col1⟩
    rw [hws] at h
    cases r1 with
    | nil =>
      simp only [Except.ok.injEq] at h
      subst h
      intro t ht htype
      simp only [List.mem_singleton] at ht
      subst ht
      simp at htype
    | cons ch rest =>
      simp only [] at h
      by_cases h1 : ch = '\n'
      · rw [if_pos h1] at h
        exact lexLoop_ident_step h (fun ts' h' => ih _ _ _ _ h') (by simp)
      rw [if_neg h1] at h
      by_cases h2 : ch = '/' ∧ rest.head? = some '/'
      · rw [if_pos h2] at h
        exact fun t ht => ih _ _ _ _ h t ht
      rw [if_neg h2] at h
      by_cases h3 : ch = '/' ∧ rest.head? = some '*'
      · rw [if_pos h3] at h
        cases hb : blockLoop rest.tail line (col1 + 2) with
        | error e => rw [hb] at h; exact Except.noConfusion h
        | ok out =>
          obtain ⟨r2, line2, col2⟩ := out
          rw [hb] at h
          exact fun t ht => ih _ _ _ _ h t ht
      rw [if_neg h3] at h
      by_cases h4 : isDigit ch = true
      · rw [if_pos h4] at h
        exact lexLoop_ident_step h (fun ts' h' => ih _ _ _ _ h') (by simp)
      rw [if_neg h4] at h
      by_cases h5 : ch = '"'
      · rw [if_pos h5] at h
        cases hb : strLoop rest [] line (col1 + 1) with
        | error e => rw [hb] at h; exact Except.noConfusion h
        | ok out =>
          obtain ⟨v, r2, line2, col2⟩ := out
          rw [hb] at h
          exact lexLoop_ident_step h (fun ts' h' => ih _ _ _ _ h') (by simp)
      rw [if_neg h5] at h
      by_cases h6 : ch = '`'
      · rw [if_pos h6] at h
        cases hb : templLoop rest [] line (col1 + 1) with
        | error e => rw [hb] at h; exact Except.noConfusion h
        | ok out =>
          obtain ⟨v, r2, line2, col2⟩ := out
          rw [hb] at h
          exact lexLoop_ident_step h (fun ts' h' => ih _ _ _ _ h') (by simp)
      rw [if_neg h6] at h
      by_cases h7 : isAlpha ch = true
      · rw [if_pos h7] at h
        exact lexLoop_ident_step h (fun ts' h' => ih _ _ _ _ h')
          (fun _ => Or.inr (isIdentWord_of_splitWhile h7 rfl))
      rw [if_neg h7] at h
      by_cases h8 : ch = '|' ∧ rest.head? = some '>'
      · rw [if_pos h8] at h
        exact lexLoop_ident_step h (fun ts' h' => ih _ _ _ _ h') (by simp)
      rw [if_neg h8] at h
      by_cases h9 : ch = '=' ∧ rest.head? = some '>'
      · rw [if_pos h9] at h
        exact lexLoop_ident_step h (fun ts' h' => ih _ _ _ _ h') (by simp)
      rw [if_neg h9] at h
      by_cases h10 : ch = '=' ∧ rest.head? = some '='
      · rw [if_pos h10] at h
        exact lexLoop_ident_step h (fun ts' h' => ih _ _ _ _ h') (by simp)
      rw [if_neg h10] at h
      by_cases h11 : ch = '!' ∧ rest.head? = some '='
      · rw [if_pos h11] at h
        exact lexLoop_ident_step h (fun ts' h' => ih _ _ _ _ h') (by simp)
      rw [if_neg h11] at h
      by_cases h12 : ch = '<' ∧ rest.head? = some '='
      · rw [if_pos h12] at h
        exact lexLoop_ident_step h (fun ts' h' => ih _ _ _ _ h') (by simp)
      rw [if_neg h12] at h
      by_cases h13 : ch = '>' ∧ rest.head? = some '='
      · rw [if_pos h13] at h
        exact lexLoop_ident_step h (fun ts' h' => ih _ _ _ _ h') (by simp)
      rw [if_neg h13] at h
      by_cases h14 : ch = '&' ∧ rest.head? = some '&'
      · rw [if_pos h14] at h
        exact lexLoop_ident_step h (fun ts' h' => ih _ _ _ _ h') (by simp)
      rw [if_neg h14] at h
      by_cases h15 : ch = '|' ∧ rest.head? = some '|'
      · rw [if_pos h15] at h
        exact lexLoop_ident_step h (fun ts' h' => ih _ _ _ _ h') (by simp)
      rw [if_neg h15] at h
      by_cases h16 : ch = '.' ∧ rest.head? = some '.'
      · rw [if_pos h16] at h
        exact lexLoop_ident_step h (fun ts' h' => ih _ _ _ _ h') (by simp)
      rw [if_neg h16] at h
      cases hst : singleTok ch with
      | none => rw [hst] at h; exact Except.noConfusion h
      | some tv =>
        obtain ⟨ty, v⟩ := tv
        rw [hst] at h
        exact lexLoop_ident_step h (fun ts' h' => ih _ _ _ _ h')
          (fun htype => Or.inl (singleTok_ident hst htype))

/-- Every lexer failure, with positive line and column and in-range fuel,
is one of the four thrown messages: the three unterminated shapes (line
only) or the unexpected-character shape (line and column). -/
theorem lexLoop_error_shape :
    ∀ (fuel : Nat) (r : List Char) (line col : Nat) (m : String),
      r.length < fuel → 1 ≤ line → 1 ≤ col →
      lexLoop fuel r line col = .error m →
      (∃ l, 1 ≤ l ∧ m = "Unterminated string at line " ++ toString l) ∨
      (∃ l, 1 ≤ l ∧ m = "Unterminated template string at line " ++ toString l) ∨
      (∃ l, 1 ≤ l ∧ m = "Unterminated block comment at line " ++ toString l) ∨
      (∃ c l k, 1 ≤ l ∧ 1 ≤ k ∧
        m = "Unexpected character '" ++ String.mk [c] ++ "' at line " ++
          toString l ++ ", column " ++ toString k) := by
  intro fuel
  induction fuel with
  | zero =>
    intro r line col m hfuel
    exact absurd hfuel (Nat.not_lt_zero _)
  | succ f ih =>
    intro r line col m hfuel hline hcol h
    simp only [lexLoop] at h
    rcases hws : skipWhitespace r col with ⟨r1, col1⟩
    have hr1 : r1.length ≤ r.length := by
      have := skipWhitespace_length_le r col
      rw [hws] at this
      exact this
    have hcol1 : col ≤ col1 := by
      have := skipWhitespace_col_ge r col
      rw [hws] at this
      exact this
    rw [hws] at h
    cases r1 with
    | nil => exact Except.noConfusion h
    | cons ch rest =>
      simp only [] at h
      have hrest : rest.length < f := by
        simp only [List.length_cons] at hr1
        omega
      have hcol1p : 1 ≤ col1 := Nat.le_trans hcol hcol1
      by_cases h1 : ch = '\n'
      · rw [if_pos h1] at h
        exact ih _ _ _ _ hrest (by omega) (by omega) (map_error h)
      rw [if_neg h1] at h
      by_cases h2 : ch = '/' ∧ rest.head? = some '/'
      · rw [if_pos h2] at h
        obtain ⟨hch, -⟩ := h2
        subst hch
        have hstep : skipLineComment ('/' :: rest) col1 =
            skipLineComment rest (col1 + 1) := by
          simp only [skipLineComment]
          rw [if_neg (by decide)]
        rw [hstep] at h
        have hlen : (skipLineComment rest (col1 + 1)).1.length < f :=
          Nat.lt_of_le_of_lt (skipLineComment_length_le rest (col1 + 1)) hrest
        have hc2 : 1 ≤ (skipLineComment rest (col1 + 1)).2 :=
          Nat.le_trans (by omega) (skipLineComment_col_ge rest (col1 + 1))
        exact ih _ _ _ _ hlen hline hc2 h
      rw [if_neg h2] at h
      by_cases h3 : ch = '/' ∧ rest.head? = some '*'
      · rw [if_pos h3] at h
        cases hb : blockLoop rest.tail line (col1 + 2) with
        | error e =>
          rw [hb] at h
          have he : (Except.error e : Except String (List Token)) = .error m := h
          injection he with he
          subst he
          obtain ⟨l, hl, hm⟩ := blockLoop_error _ _ _ _ hb
          exact Or.inr (Or.inr (Or.inl ⟨l, Nat.le_trans hline hl, hm⟩))
        | ok out =>
          obtain ⟨r2, line2, col2⟩ := out
          rw [hb] at h
          have hlen : r2.length < f := by
            have hb1 := blockLoop_length_le _ _ _ _ hb
            have hb2 : rest.tail.length ≤ rest.length := by
              cases rest <;> simp
            simp only [] at hb1
            omega
          obtain ⟨hl2, hc2⟩ := blockLoop_ok_line_col _ _ _ _ hb
          exact ih _ _ _ _ hlen (Nat.le_trans hline hl2) hc2 h
      rw [if_neg h3] at h
      by_cases h4 : isDigit ch = true
      · rw [if_pos h4] at h
        have hlen : (readNumber (ch :: rest)).2.1.length < f := by
          have := readNumber_snd_length_lt ch rest h4
          simp only [List.length_cons] at this
          omega
        exact ih _ _ _ _ hlen hline (by omega) (map_error h)
      rw [if_neg h4] at h
      by_cases h5 : ch = '"'
      · rw [if_pos h5] at h
        cases hb : strLoop rest [] line (col1 + 1) with
        | error e =>
          rw [hb] at h
          have he : (Except.error e : Except String (List Token)) = .error m := h
          injection he with he
          subst he
          obtain ⟨l, hl, hm⟩ := strLoop_error _ _ _ _ _ hb
          exact Or.inl ⟨l, Nat.le_trans hline hl, hm⟩
        | ok out =>
          obtain ⟨v, r2, line2, col2⟩ := out
          rw [hb] at h
          have hlen : r2.length < f := by
            have := strLoop_length_le _ _ _ _ _ hb
            simp only [] at this
            omega
          obtain ⟨hl2, hc2⟩ := strLoop_ok_line_col _ _ _ _ _ hb
          exact ih _ _ _ _ hlen (Nat.le_trans hline hl2) hc2 (map_error h)
      rw [if_neg h5] at h
      by_cases h6 : ch = '`'
      · rw [if_pos h6] at h
        cases hb : templLoop rest [] line (col1 + 1) with
        | error e =>
          rw [hb] at h
          have he : (Except.error e : Except String (List Token)) = .error m := h
          injection he with he
          subst he
          obtain ⟨l, hl, hm⟩ := templLoop_error _ _ _ _ _ hb
          exact Or.inr (Or.inl ⟨l, Nat.le_trans hline hl, hm⟩)
        | ok out =>
          obtain ⟨v, r2, line2, col2⟩ := out
          rw [hb] at h
          have hlen : r2.length < f := by
            have := templLoop_length_le _ _ _ _ _ hb
            simp only [] at this
            omega
          obtain ⟨hl2, hc2⟩ := templLoop_ok_line_col _ _ _ _ _ hb
          exact ih _ _ _ _ hlen (Nat.le_trans hline hl2) hc2 (map_error h)
      rw [if_neg h6] at h
      by_cases h7 : isAlpha ch = true
      · rw [if_pos h7] at h
        have hlen : (splitWhile isAlphaNumeric (ch :: rest)).2.length < f := by
          have := splitWhile_snd_length_lt isAlphaNumeric ch rest
            (by simp [isAlphaNumeric, h7])
          simp only [List.length_cons] at this
          omega
        exact ih _ _ _ _ hlen hline (by omega) (map_error h)
      rw [if_neg h7] at h
      have htail : rest.tail.length < f := by
        have : rest.tail.length ≤ rest.length := by cases rest <;> simp
        omega
      by_cases h8 : ch = '|' ∧ rest.head? = some '>'
      · rw [if_pos h8] at h
        exact ih _ _ _ _ htail hline (by omega) (map_error h)
      rw [if_neg h8] at h
      by_cases h9 : ch = '=' ∧ rest.head? = some '>'
      · rw [if_pos h9] at h
        exact ih _ _ _ _ htail hline (by omega) (map_error h)
      rw [if_neg h9] at h
      by_cases h10 : ch = '=' ∧ rest.head? = some '='
      · rw [if_pos h10] at h
        exact ih _ _ _ _ htail hline (by omega) (map_error h)
      rw [if_neg h10] at h
      by_cases h11 : ch = '!' ∧ rest.head? = some '='
      · rw [if_pos h11] at h
        exact ih _ _ _ _ htail hline (by omega) (map_error h)
      rw [if_neg h11] at h
      by_cases h12 : ch = '<' ∧ rest.head? = some '='
      · rw [if_pos h12] at h
        exact ih _ _ _ _ htail hline (by omega) (map_error h)
      rw [if_neg h12] at h
      by_cases h13 : ch = '>' ∧ rest.head? = some '='
      · rw [if_pos h13] at h
        exact ih _ _ _ _ htail hline (by omega) (map_error h)
      rw [if_neg h13] at h
      by_cases h14 : ch = '&' ∧ rest.head? = some '&'
      · rw [if_pos h14] at h
        exact ih _ _ _ _ htail hline (by omega) (map_error h)
      rw [if_neg h14] at h
      by_cases h15 : ch = '|' ∧ rest.head? = some '|'
      · rw [if_pos h15] at h
        exact ih _ _ _ _ htail hline (by omega) (map_error h)
      rw [if_neg h15] at h
      by_cases h16 : ch = '.' ∧ rest.head? = some '.'
      · rw [if_pos h16] at h
        exact ih _ _ _ _ htail hline (by omega) (map_error h)
      rw [if_neg h16] at h
      cases hst : singleTok ch with
      | none =>
        rw [hst] at h
        have he : (Except.error ("Unexpected character '" ++ String.mk [ch] ++
            "' at line " ++ toString line ++ ", column " ++ toString col1) :
            Except String (List Token)) = .error m := h
        injection he with he
        exact Or.inr (Or.inr (Or.inr ⟨ch, line, col1, hline, hcol1p, he.symm⟩))
      | some tv =>
        obtain ⟨ty, v⟩ := tv
        rw [hst] at h
        exact ih _ _ _ _ hrest hline (by omega) (map_error h)

theorem filterNewlinesGo_mem :
    ∀ (l acc : List Token) (t : Token),
      t ∈ filterNewlinesGo acc l → t ∈ acc ∨ t ∈ l := by
  intro l
  induction l with
  | nil =>
    intro acc t h
    simp only [filterNewlinesGo] at h
    exact Or.inl (List.mem_reverse.1 h)
  | cons t0 rest ih =>
    intro acc t h
    simp only [filterNewlinesGo] at h
    repeat' (split at h)
    all_goals (
      rcases ih _ _ h with h' | h'
      · simp only [List.mem_cons] at h' ⊢
        tauto
      · simp only [List.mem_cons]
        tauto)

/-- Every `Identifier` token that `tokenize` emits has literal text `?` or
matches the identifier word class. -/
theorem tokenize_ident {s : String} {ts : List Token}
    (h : tokenize s = .ok ts) :
    ∀ t ∈ ts, t.type = .Identifier →
      t.value = "?" ∨ isIdentWord t.value = true := by
  unfold tokenize at h
  cases hl : lexLoop (s.data.length + 1) s.data 1 1 with
  | error e => rw [hl] at h; simp [Except.map] at h
  | ok l =>
    rw [hl] at h
    simp only [Except.map, Except.ok.injEq] at h
    subst h
    intro t ht htype
    have hmem : t ∈ l := by
      rcases filterNewlinesGo_mem l [] t ht with h' | h'
      · simp at h'
      · exact h'
    exact lexLoop_ident _ _ _ _ _ hl t hmem htype

/-- Every `tokenize` failure message has one of the four thrown shapes. -/
theorem tokenize_error_shape {s : String} {m : String}
    (h : tokenize s = .error m) :
    (∃ l, 1 ≤ l ∧ m = "Unterminated string at line " ++ toString l) ∨
    (∃ l, 1 ≤ l ∧ m = "Unterminated template string at line " ++ toString l) ∨
    (∃ l, 1 ≤ l ∧ m = "Unterminated block comment at line " ++ toString l) ∨
    (∃ c l k, 1 ≤ l ∧ 1 ≤ k ∧
      m = "Unexpected character '" ++ String.mk [c] ++ "' at line " ++
        toString l ++ ", column " ++ toString k) := by
  unfold tokenize at h
  exact lexLoop_error_shape (s.data.length + 1) s.data 1 1 m
    (Nat.lt_succ_self _) (Nat.le_refl _) (Nat.le_refl _) (map_error h)

-- ── Claim C7 ─────────────────────────────────────────────────────────────

/-- C7 (amended): `tokenize` fails exactly with one of four message shapes:
unterminated string, unterminated template string and unterminated block
comment carry only the 1-based line, while the unexpected-character message
carries the 1-based line and column; all four are reachable.  The spec's
statement that every such message includes the column holds only for the
unexpected-character shape. -/
theorem c7_lexer_error_shapes :
    (∀ s m : String, tokenize s = .error m →
      (∃ l, 1 ≤ l ∧ m = "Unterminated string at line " ++ toString l) ∨
      (∃ l, 1 ≤ l ∧ m = "Unterminated template string at line " ++ toString l) ∨
      (∃ l, 1 ≤ l ∧ m = "Unterminated block comment at line " ++ toString l) ∨
      (∃ c l k, 1 ≤ l ∧ 1 ≤ k ∧
        m = "Unexpected character '" ++ String.mk [c] ++ "' at line " ++
          toString l ++ ", column " ++ toString k)) ∧
    tokenize "\"abc" = .error "Unterminated string at line 1" ∧
    tokenize "`abc" = .error "Unterminated template string at line 1" ∧
    tokenize "/* x" = .error "Unterminated block comment at line 1" ∧
    tokenize "^" = .error "Unexpected character '^' at line 1, column 1" :=
  ⟨fun _ _ h => tokenize_error_shape h, by decide, by decide, by decide, by decide⟩

/-- C7 witness: the classification applied to the concrete unterminated
block comment input. -/
theorem c7_lexer_error_shapes_witness :
    tokenize "/* x" = .error "Unterminated block comment at line 1" ∧
    ((∃ l, 1 ≤ l ∧ ("Unterminated block comment at line 1" : String) =
        "Unterminated string at line " ++ toString l) ∨
     (∃ l, 1 ≤ l ∧ ("Unterminated block comment at line 1" : String) =
        "Unterminated template string at line " ++ toString l) ∨
     (∃ l, 1 ≤ l ∧ ("Unterminated block comment at line 1" : String) =
        "Unterminated block comment at line " ++ toString l) ∨
     (∃ c l k, 1 ≤ l ∧ 1 ≤ k ∧
       ("Unterminated block comment at line 1" : String) =
         "Unexpected character '" ++ String.mk [c] ++ "' at line " ++
           toString l ++ ", column " ++ toString k)) :=
  ⟨by decide, c7_lexer_error_shapes.1 "/* x"
    "Unterminated block comment at line 1" (by decide)⟩

/-- C7 counterexample: the unterminated-string message carries no column.
Unterminated strings opening at column 1 and at column 4 raise the same
message, and the message does not even contain the digit of the column. -/
theorem c7_unterminated_no_column :
    tokenize "\"abc" = .error "Unterminated string at line 1" ∧
    tokenize "   \"abc" = .error "Unterminated string at line 1" ∧
    ("Unterminated string at line 1" : String).data.contains '4' = false :=
  ⟨by decide, by decide, by decide⟩

-- ── Claim C9 ─────────────────────────────────────────────────────────────

/-- C9: `tokenize` lexes `?` as an `Identifier` token with literal text
`?`; the parser consumes it between a condition and a `:` to build a
`ConditionalExpr`; and every `Identifier` token `tokenize` ever emits has
text `?` or matches the identifier word class, so `?` is the only
character lexed as `Identifier` outside that class. -/
theorem c9_question_identifier :
    tokenize "?" = .ok [⟨.Identifier, "?", 1, 1⟩, ⟨.EOF, "", 1, 2⟩] ∧
    lexParse "a ? b : c" = .ok (.program [.expressionStatement
      (.conditionalExpr (.identifier "a") (.identifier "b")
        (.identifier "c"))]) ∧
    ∀ (s : String) (ts : List Token), tokenize s = .ok ts →
      ∀ t ∈ ts, t.type = .Identifier →
        t.value = "?" ∨ isIdentWord t.value = true :=
  ⟨by decide, by rfl, fun _ _ h => tokenize_ident h⟩

/-- C9 witness: the classification applied to the `Identifier` token of a
concrete run. -/
theorem c9_question_identifier_witness :
    tokenize "foo" = .ok [⟨.Identifier, "foo", 1, 4⟩, ⟨.EOF, "", 1, 4⟩] ∧
    ((⟨.Identifier, "foo", 1, 4⟩ : Token).value = "?" ∨
      isIdentWord (⟨.Identifier, "foo", 1, 4⟩ : Token).value = true) :=
  ⟨by decide, c9_question_identifier.2.2 "foo"
    [⟨.Identifier, "foo", 1, 4⟩, ⟨.EOF, "", 1, 4⟩] (by decide)
    ⟨.Identifier, "foo", 1, 4⟩ (List.mem_cons_self _ _) rfl⟩

-- ── Claim C3 ─────────────────────────────────────────────────────────────

/-- Any node `parseUIElement` returns is a `ComponentInstance` whose name
starts with an upper-case ASCII letter, or a `UIElement` whose tag does
not (the `isComponent = /^[A-Z]/` test). -/
theorem parseUIElement_shape (f : Nat) (toks : List Token) (pos : Nat)
    (n : ASTNode) (p' : Nat) (h : parseUIElement f toks pos = .ok (n, p')) :
    (∃ name props ch sc, n = .componentInstance name props ch sc ∧
      startsUpper name = true) ∨
    (∃ tag attrs ch sc, n = .uiElement tag attrs ch sc ∧
      startsUpper tag = false) := by
  match f with
  | 0 => simp [parseUIElement] at h
  | f + 1 =>
    simp only [parseUIElement, Except.bind, bind] at h
    repeat' (split at h)
    all_goals first
    | exact Except.noConfusion h
    | (simp only [Except.ok.injEq, Prod.mk.injEq] at h
       obtain ⟨hn, hp⟩ := h
       subst hn
       first
       | (left; exact ⟨_, _, _, _, rfl, by assumption⟩)
       | (right; refine ⟨_, _, _, _, rfl, ?_⟩; simp_all))

/-- C3: a parsed UI tag yields a `ComponentInstance` node exactly when its
first character is an upper-case ASCII letter, and a `UIElement` node
otherwise; in particular `<Button/>` parses to
`ComponentInstance "Button"` self-closing, and `<div/>` to
`UIElement "div"` self-closing. -/
theorem c3_component_vs_element :
    (∀ (f : Nat) (toks : List Token) (pos : Nat) (n : ASTNode) (p' : Nat),
      parseUIElement f toks pos = .ok (n, p') →
      (∃ name props ch sc, n = .componentInstance name props ch sc ∧
        startsUpper name = true) ∨
      (∃ tag attrs ch sc, n = .uiElement tag attrs ch sc ∧
        startsUpper tag = false)) ∧
    lexParse "<Button/>" = .ok (.program [.componentInstance "Button" [] [] true]) ∧
    lexParse "<div/>" = .ok (.program [.uiElement "div" [] [] true]) :=
  ⟨parseUIElement_shape, by rfl, by rfl⟩

/-- C3 witness: the shape alternative applied to a concrete `<Button/>`
token list. -/
theorem c3_component_vs_element_witness :
    parseUIElement 10
      [⟨.LessThan, "<", 1, 1⟩, ⟨.Identifier, "Button", 1, 8⟩,
       ⟨.Slash, "/", 1, 9⟩, ⟨.GreaterThan, ">", 1, 10⟩, ⟨.EOF, "", 1, 10⟩] 0 =
      .ok (.componentInstance "Button" [] [] true, 4) ∧
    ((∃ name props ch sc, (ASTNode.componentInstance "Button" [] [] true) =
        .componentInstance name props ch sc ∧ startsUpper name = true) ∨
     (∃ tag attrs ch sc, (ASTNode.componentInstance "Button" [] [] true) =
        .uiElement tag attrs ch sc ∧ startsUpper tag = false)) :=
  ⟨by rfl, c3_component_vs_element.1 10
    [⟨.LessThan, "<", 1, 1⟩, ⟨.Identifier, "Button", 1, 8⟩,
     ⟨.Slash, "/", 1, 9⟩, ⟨.GreaterThan, ">", 1, 10⟩, ⟨.EOF, "", 1, 10⟩] 0
    (.componentInstance "Button" [] [] true) 4 (by rfl)⟩

-- ── Claim C4 ─────────────────────────────────────────────────────────────

/-- The token list of a source shaped `<a></b>` (all positions collapsed
to line 1, column 1, as `parse` only reads them for error text). -/
def mismatchToks (a b : String) : List Token :=
  [⟨.LessThan, "<", 1, 1⟩, ⟨.Identifier, a, 1, 1⟩, ⟨.GreaterThan, ">", 1, 1⟩,
   ⟨.LessThan, "<", 1, 1⟩, ⟨.Slash, "/", 1, 1⟩, ⟨.Identifier, b, 1, 1⟩,
   ⟨.GreaterThan, ">", 1, 1⟩, ⟨.EOF, "", 1, 1⟩]

/-- The closing-tag-mismatch message `error()` produces for those tokens. -/
def mismatchMsg (a b : String) : String :=
  "[Parse Error] " ++ ("Expected closing tag </" ++ a ++ ">, got </" ++ b ++ ">") ++
    " at line " ++ "1" ++ ", col " ++ "1"

/-- C4: parsing a non-self-closing UI element whose closing tag differs
from its opening tag fails with a parse error naming both tags — for every
two distinct tag names, and concretely for `<div>hello</span>`. -/
theorem c4_closing_tag_mismatch :
    (∀ a b : String, startsAsciiLetter a = true → a ≠ b →
      parse (mismatchToks a b) = .error (mismatchMsg a b) ∧
      ∃ p q r, mismatchMsg a b = p ++ a ++ q ++ b ++ r) ∧
    lexParse "<div>hello</span>" =
      .error "[Parse Error] Expected closing tag </div>, got </span> at line 1, col 17" := by
  refine ⟨?_, by rfl⟩
  intro a b ha hne
  have hba : (b = a) = False := by
    simp only [eq_iff_iff, iff_false]
    exact fun h => hne h.symm
  constructor
  · have hUI : parseUIElement 898 (mismatchToks a b) 0 =
        .error (mismatchMsg a b) := by
      have hAttr : uiAttrLoop 897 (mismatchToks a b) 2 (startsUpper a) =
          .ok ([], [], 2) := rfl
      have hCh : uiChildLoop 897 (mismatchToks a b) 3 = .ok ([], 3) := rfl
      simp only [parseUIElement, hAttr, hCh, Except.bind, bind]
      have e1 : expect (mismatchToks a b) 0 .LessThan =
          .ok (⟨.LessThan, "<", 1, 1⟩, 1) := rfl
      have e2 : expect (mismatchToks a b) 1 .Identifier =
          .ok (⟨.Identifier, a, 1, 1⟩, 2) := rfl
      have e3 : skipNewlines (mismatchToks a b) 2 = 2 := rfl
      have e4 : checkTok (mismatchToks a b) 2 .Slash = false := rfl
      have e5 : expect (mismatchToks a b) 2 .GreaterThan =
          .ok (⟨.GreaterThan, ">", 1, 1⟩, 3) := rfl
      have e6 : expect (mismatchToks a b) 3 .LessThan =
          .ok (⟨.LessThan, "<", 1, 1⟩, 4) := rfl
      have e7 : expect (mismatchToks a b) 4 .Slash =
          .ok (⟨.Slash, "/", 1, 1⟩, 5) := rfl
      have e8 : expect (mismatchToks a b) 5 .Identifier =
          .ok (⟨.Identifier, b, 1, 1⟩, 6) := rfl
      have h1 : toString (1 : Nat) = "1" := by decide
      have e9 : parseErr (mismatchToks a b) 6 ("Expected closing tag </" ++ a ++
          ">, got </" ++ b ++ ">") = mismatchMsg a b := by
        simp only [parseErr, mismatchMsg, mismatchToks, tokAt]
        norm_num [h1]
      simp only [e1, e2, e3, e4, e5, e6, e7, e8, hAttr, hCh, Bool.false_eq_true,
        if_false, hba, e9]
      exact if_pos (fun h => hne h.symm)
    have hStmt : parseStatement 899 (mismatchToks a b) 0 =
        parseUIElement 898 (mismatchToks a b) 0 := by
      have ht : tokAt (mismatchToks a b) 0 = ⟨.LessThan, "<", 1, 1⟩ := rfl
      have hUIe : isUIElement (mismatchToks a b) 0 = true := by
        simp [isUIElement, mismatchToks, checkTok, isAtEnd, tokAt, ha]
      simp only [parseStatement, ht, hUIe, if_true]
      simp
    have hae : isAtEnd (mismatchToks a b) 0 = false := rfl
    have hsn : skipNewlines (mismatchToks a b) 0 = 0 := rfl
    have hLoop : parseProgramLoop 900 (mismatchToks a b) 0 =
        .error (mismatchMsg a b) := by
      show parseProgramLoop (Nat.succ 899) (mismatchToks a b) 0 = _
      rw [parseProgramLoop.eq_def]
      simp only [hae, Bool.false_eq_true, if_false, hsn, hStmt, hUI, Except.bind,
        bind]
    have hfuel : 100 * (mismatchToks a b).length + 100 = 900 := rfl
    simp only [parse, bind, Except.bind, hfuel, hLoop]
  · refine ⟨"[Parse Error] " ++ "Expected closing tag </", ">, got </",
      ">" ++ " at line " ++ "1" ++ ", col " ++ "1", ?_⟩
    simp only [mismatchMsg, String.append_assoc]

/-- C4 witness: the mismatch failure at the concrete tags `div`/`span`. -/
theorem c4_closing_tag_mismatch_witness :
    startsAsciiLetter "div" = true ∧ "div" ≠ "span" ∧
    (parse (mismatchToks "div" "span") = .error (mismatchMsg "div" "span") ∧
      ∃ p q r, mismatchMsg "div" "span" = p ++ "div" ++ q ++ "span" ++ r) :=
  ⟨by decide, by decide,
    c4_closing_tag_mismatch.1 "div" "span" (by decide) (by decide)⟩

-- ── Claim C6 ─────────────────────────────────────────────────────────────

/-- Reflexivity of `isCompatible`, by structural recursion on the type
(the `expected === actual` / element-type recursion of the source). -/
theorem isCompatible_refl : (t : LuminaType) → isCompatible t t = true
  | .int => rfl
  | .string => rfl
  | .bool => rfl
  | .null => rfl
  | .any => rfl
  | .void => rfl
  | .array e => by simp [isCompatible, kindOf]; exact isCompatible_refl e
  | .object _ => rfl
  | .function _ _ => rfl
  | .component _ => rfl

theorem isCompatible_any_left (x : LuminaType) : isCompatible .any x = true := by
  simp [isCompatible, kindOf]

theorem isCompatible_any_right (x : LuminaType) : isCompatible x .any = true := by
  simp [isCompatible, kindOf]

/-- C6: `isCompatible` is reflexive and `Any` is universal on both sides. -/
theorem c6_type_compat :
    (∀ t : LuminaType, isCompatible t t = true) ∧
    (∀ x : LuminaType, isCompatible .any x = true ∧ isCompatible x .any = true) :=
  ⟨isCompatible_refl, fun x => ⟨isCompatible_any_left x, isCompatible_any_right x⟩⟩

-- ── Claim C10 ────────────────────────────────────────────────────────────

/-- C10: an annotation text other than `Int`, `String`, `Bool` or `Void`
parses to type `Any`; `Any` is compatible with everything in both
directions; and a variable or state declaration carrying such an
annotation appends no diagnostic of its own — its `checkNode` result is
exactly the initializer's check followed by the binding. -/
theorem c10_unknown_ann :
    (∀ a : String, a ∉ ["Int", "String", "Bool", "Void"] →
      parseTypeAnn (some a) = .any) ∧
    (∀ t : LuminaType, isCompatible t .any = true ∧ isCompatible .any t = true) ∧
    (∀ (comps : Components) (n : String) (m : Bool) (v : ASTNode) (env : TypeEnv)
      (errs : List String) (a : String), a ∉ ["Int", "String", "Bool", "Void"] →
      checkNode comps (.variableDecl n m (some a) v) env errs =
        (.void, ((checkNode comps v env errs).2.1).setVar n
          (checkNode comps v env errs).1, (checkNode comps v env errs).2.2)) ∧
    (∀ (comps : Components) (n : String) (v : ASTNode) (env : TypeEnv)
      (errs : List String) (a : String), a ∉ ["Int", "String", "Bool", "Void"] →
      checkNode comps (.stateDecl n (some a) v) env errs =
        (.void, ((checkNode comps v env errs).2.1).setVar n
          (checkNode comps v env errs).1, (checkNode comps v env errs).2.2)) := by
  have hann : ∀ a : String, a ∉ ["Int", "String", "Bool", "Void"] →
      parseTypeAnn (some a) = .any := by
    intro a ha
    simp only [List.mem_cons, List.mem_singleton, not_or] at ha
    obtain ⟨h1, h2, h3, h4⟩ := ha
    simp [parseTypeAnn, h1, h2, h3, h4]
  refine ⟨hann, fun t => ⟨isCompatible_any_right t, isCompatible_any_left t⟩, ?_, ?_⟩
  · intro comps n m v env errs a ha
    simp only [checkNode, hann a ha, isCompatible_any_right, kindOf]
    simp
  · intro comps n v env errs a ha
    simp only [checkNode, hann a ha, isCompatible_any_right, kindOf]
    simp

/-- C10 witness: the unknown annotation `Foo` on a variable declaration
yields `Any` and no diagnostic. -/
theorem c10_unknown_ann_witness :
    parseTypeAnn (some "Foo") = .any ∧
    checkNode [] (.variableDecl "x" false (some "Foo") (.numberLiteral "1"))
        (.mk [] none) [] =
      (.void, (TypeEnv.mk [] none).setVar "x" .int, []) := by
  constructor
  · exact c10_unknown_ann.1 "Foo" (by decide)
  · rw [c10_unknown_ann.2.2.1 [] "x" false (.numberLiteral "1") (.mk [] none) []
      "Foo" (by decide)]
    simp [checkNode]

-- ── Claim C1 ─────────────────────────────────────────────────────────────

set_option maxRecDepth 100000 in
/-- C1: compilation is NOT a deterministic function of the source text.
`genUIElement` names each DOM local from `Math.random()` (modelled as the
explicit stream `rnd`), so two runs of the same pipeline on the same
source — differing only in what the random source returns — produce
different JavaScript, while both succeed. -/
theorem c1_codegen_nondeterminism :
    (compile (fun _ => "aaaaa") "component App() \x7b <div/> \x7d").isOk = true ∧
    (compile (fun _ => "bbbbb") "component App() \x7b <div/> \x7d").isOk = true ∧
    (compile (fun _ => "aaaaa")
        "component App() \x7b <div/> \x7d").toOption.map GenOut.js ≠
      (compile (fun _ => "bbbbb")
        "component App() \x7b <div/> \x7d").toOption.map GenOut.js :=
  ⟨by decide, by decide, by decide⟩

-- ── Claim C2 ─────────────────────────────────────────────────────────────

/-- C2 (amended): the checker resets its diagnostics array on every
`check` call — a reused instance behaves exactly like one whose error
state is empty, and like a completely fresh instance whenever its retained
component registry is empty; a generator whose whole state equals a fresh
instance's likewise generates fresh results.  What a reused instance does
NOT reset is the component registry (see the counterexample). -/
theorem c2_instance_state :
    (∀ (st : TCState) (body : List ASTNode),
      checkInst st body = checkInst ⟨[], st.components⟩ body) ∧
    (∀ (errs : List String) (body : List ASTNode),
      (checkInst ⟨errs, []⟩ body).1 = checkFresh body) ∧
    (∀ (st : TCState) (body : List ASTNode),
      (checkInst st body).2.components = (firstPass st.components [] body).1) ∧
    (∀ (rnd : Nat → String) (body : List ASTNode),
      (generate ⟨[], [], rnd, 0⟩ body).map Prod.fst = generateFresh rnd body) := by
  refine ⟨fun _ _ => rfl, fun _ _ => rfl, ?_, fun _ _ => rfl⟩
  intro st body
  unfold checkInst check
  rcases h : firstPass st.components [] body with ⟨c, g⟩
  simp [h]

set_option maxRecDepth 100000 in
/-- C2 counterexample: both core instances retain their component
registry between calls.  Checking `<Foo/>` on an instance that
previously checked `component Foo` succeeds, while a fresh instance
reports an unknown component; generating an empty program on a reused
generator differs from a fresh generator's output. -/
theorem c2_retained_registry :
    (checkInst (checkInst ⟨[], []⟩ [.componentDecl "Foo" [] []]).2
        [.componentInstance "Foo" [] [] true]).1 = ⟨true, []⟩ ∧
    checkFresh [.componentInstance "Foo" [] [] true] =
      ⟨false, [typeErr "Unknown component: Foo"]⟩ ∧
    ((generate ⟨[], [], fun _ => "aaaaa", 0⟩
        [.componentDecl "Foo" [] []]).bind fun x => generate x.2 []).map Prod.fst ≠
      (generate ⟨[], [], fun _ => "aaaaa", 0⟩ []).map Prod.fst := by
  refine ⟨?_, ?_, by decide⟩
  · simp [checkInst, check, firstPass, checkNodes, checkNode, typeErr, mapSet,
      mapGet, paramBindings, checkInstProps, List.isEmpty]
  · simp [checkFresh, check, firstPass, checkNodes, checkNode, typeErr, mapSet,
      mapGet, List.isEmpty]

-- ── Claim C8 ─────────────────────────────────────────────────────────────

/-- Generic inversion of `Except.map` at `ok`. -/
theorem exceptMap_ok {α β : Type} {f : α → β} {e : Except String α} {y : β}
    (h : e.map f = .ok y) : ∃ x, e = .ok x ∧ y = f x := by
  cases e with
  | error _ => simp [Except.map] at h
  | ok x => exact ⟨x, rfl, by simpa [Except.map] using h.symm⟩

/-- The CSS chunks `generateLoop` accumulates: one per top-level
`StyleDecl`, in order, threading the instance state as the loop does (and
failing exactly when lowering a component body throws). -/
def cssChunksGo (st : GenSt) : List ASTNode → Except String (List String)
  | [] => .ok []
  | node :: rest =>
    match node with
    | .componentDecl name params body =>
      match genComponent { st with components := mapSet st.components name true }
          name params body with
      | .error e => .error e
      | .ok (_, st2) => cssChunksGo st2 rest
    | .styleDecl name props =>
      (cssChunksGo (genStyleDecl st name props).2 rest).map
        ((genStyleDecl st name props).1 :: ·)
    | _ => cssChunksGo st rest

/-- Whether a node is a `StyleDecl`. -/
def isStyleDeclNode : ASTNode → Bool
  | .styleDecl _ _ => true
  | _ => false

theorem generateLoop_css :
    ∀ (body : List ASTNode) (st : GenSt) (js css : List String),
      (generateLoop st js css body).map (fun r => r.2.1) =
        (cssChunksGo st body).map (css ++ ·) := by
  intro body
  induction body with
  | nil => intro st js css; simp [generateLoop, cssChunksGo, Except.map]
  | cons node rest ih =>
    intro st js css
    cases node
    case componentDecl name params body =>
      simp only [generateLoop, cssChunksGo]
      cases hg : genComponent { st with components := mapSet st.components name true }
          name params body with
      | error e => simp [Except.map]
      | ok x =>
        obtain ⟨chunk, st2⟩ := x
        exact ih st2 (js ++ [chunk]) css
    case styleDecl name props =>
      simp only [generateLoop, cssChunksGo]
      rw [ih]
      cases cssChunksGo (genStyleDecl st name props).2 rest <;>
        simp [Except.map, List.append_assoc]
    all_goals (simp only [generateLoop, cssChunksGo]; rw [ih])

theorem cssChunksGo_length :
    ∀ (body : List ASTNode) (st : GenSt) (chunks : List String),
      cssChunksGo st body = .ok chunks →
      chunks.length = body.countP isStyleDeclNode := by
  intro body
  induction body with
  | nil =>
    intro st chunks h
    simp only [cssChunksGo, Except.ok.injEq] at h
    subst h
    simp [List.countP_nil]
  | cons node rest ih =>
    intro st chunks h
    cases node
    case componentDecl name params body =>
      simp only [cssChunksGo] at h
      cases hg : genComponent { st with components := mapSet st.components name true }
          name params body with
      | error e => rw [hg] at h; exact Except.noConfusion h
      | ok x =>
        obtain ⟨chunk, st2⟩ := x
        rw [hg] at h
        simpa [isStyleDeclNode, List.countP_cons] using ih st2 chunks h
    case styleDecl name props =>
      simp only [cssChunksGo] at h
      obtain ⟨l, hl, rfl⟩ := exceptMap_ok h
      simpa [isStyleDeclNode, List.countP_cons] using ih _ l hl
    all_goals (
      simp only [cssChunksGo] at h
      simpa [isStyleDeclNode, List.countP_cons] using ih _ chunks h)

theorem cssChunksGo_shape :
    ∀ (body : List ASTNode) (st : GenSt) (chunks : List String) (c : String),
      cssChunksGo st body = .ok chunks → c ∈ chunks →
      ∃ (comps : CompReg) (name : Option String)
        (props : List (String × ASTNode)),
        ASTNode.styleDecl name props ∈ body ∧
        c = "." ++ ("lumina-" ++ name.getD "default") ++ " \x7b\n" ++
          String.intercalate "\n" (props.map fun p =>
            "  " ++ camelToKebab p.1 ++ ": " ++ genStyleValue comps p.2 ++ ";") ++
          "\n\x7d" := by
  intro body
  induction body with
  | nil =>
    intro st chunks c h hc
    simp only [cssChunksGo, Except.ok.injEq] at h
    subst h
    simp at hc
  | cons node rest ih =>
    intro st chunks c h hc
    cases node
    case componentDecl name params body =>
      simp only [cssChunksGo] at h
      cases hg : genComponent { st with components := mapSet st.components name true }
          name params body with
      | error e => rw [hg] at h; exact Except.noConfusion h
      | ok x =>
        obtain ⟨chunk, st2⟩ := x
        rw [hg] at h
        obtain ⟨comps, nm, ps, hmem, hshape⟩ := ih st2 chunks c h hc
        exact ⟨comps, nm, ps, List.mem_cons_of_mem _ hmem, hshape⟩
    case styleDecl name props =>
      simp only [cssChunksGo] at h
      obtain ⟨l, hl, rfl⟩ := exceptMap_ok h
      rcases List.mem_cons.1 hc with rfl | hmem
      · exact ⟨st.components, name, props, List.mem_cons_self _ _, rfl⟩
      · obtain ⟨comps, nm, ps, hmem2, hshape⟩ := ih _ l c hl hmem
        exact ⟨comps, nm, ps, List.mem_cons_of_mem _ hmem2, hshape⟩
    all_goals (
      simp only [cssChunksGo] at h
      obtain ⟨comps, nm, ps, hmem2, hshape⟩ := ih _ chunks c h hc
      exact ⟨comps, nm, ps, List.mem_cons_of_mem _ hmem2, hshape⟩)

set_option maxRecDepth 100000 in
/-- C8 (amended): whenever generation succeeds, the CSS is the
double-newline join of exactly one rule block per TOP-LEVEL `StyleDecl` of
the program body, in order — the first conjunct equates `generate`'s css
(through `Except`, so a thrown `TypeError` yields no CSS on either side)
with exactly that chunk list; each block has selector `.lumina-<name>`
(or `.lumina-default` when the declaration is unnamed) and one kebab-cased
property line per declared property; concretely a top-level
`style btn \x7b color: "red" \x7d` compiles to exactly that rule, and a
value-less `@`-attribute makes generation throw, producing no CSS at all.
The spec's claim fails for `StyleDecl` nodes nested inside components,
which emit no CSS (see the counterexample). -/
theorem c8_css_rules :
    (∀ (st : GenSt) (body : List ASTNode),
      (generate st body).map (fun x => x.1.css) =
        (cssChunksGo st body).map (String.intercalate "\n\n")) ∧
    (∀ (st : GenSt) (body : List ASTNode) (chunks : List String),
      cssChunksGo st body = .ok chunks →
      chunks.length = body.countP isStyleDeclNode) ∧
    (∀ (st : GenSt) (body : List ASTNode) (chunks : List String) (c : String),
      cssChunksGo st body = .ok chunks → c ∈ chunks →
      ∃ (comps : CompReg) (name : Option String)
        (props : List (String × ASTNode)),
        ASTNode.styleDecl name props ∈ body ∧
        c = "." ++ ("lumina-" ++ name.getD "default") ++ " \x7b\n" ++
          String.intercalate "\n" (props.map fun p =>
            "  " ++ camelToKebab p.1 ++ ": " ++ genStyleValue comps p.2 ++ ";") ++
          "\n\x7d") ∧
    (compile (fun _ => "aaaaa") "style btn \x7b color: \"red\" \x7d").toOption.map
      GenOut.css = some ".lumina-btn \x7b\n  color: red;\n\x7d" ∧
    compile (fun _ => "aaaaa")
        "component A() \x7b style s \x7b color: \"red\" \x7d <div @click/> \x7d" =
      .error "TypeError: Cannot read properties of null (reading 'type')" := by
  refine ⟨?_, fun st body => cssChunksGo_length body st,
    fun st body => cssChunksGo_shape body st, by decide, by decide⟩
  intro st body
  have h := generateLoop_css body st [] []
  unfold generate
  cases hg : generateLoop st [] [] body with
  | error e =>
    rw [hg] at h
    cases he : cssChunksGo st body with
    | error e2 =>
      rw [he] at h
      simp [Except.map] at h ⊢
      exact h
    | ok l => rw [he] at h; simp [Except.map] at h
  | ok r =>
    obtain ⟨js, css, st1⟩ := r
    rw [hg] at h
    cases he : cssChunksGo st body with
    | error e2 => rw [he] at h; simp [Except.map] at h
    | ok l =>
      rw [he] at h
      simp only [Except.map, List.nil_append] at h
      injection h with h
      subst h
      simp [Except.map]

set_option maxRecDepth 100000 in
/-- C8 witness: the per-chunk shape applied to the concrete `btn` rule. -/
theorem c8_css_rules_witness :
    cssChunksGo ⟨[], [], fun _ => "aaaaa", 0⟩
        [.styleDecl (some "btn") [("color", .stringLiteral "red")]] =
      .ok [".lumina-btn \x7b\n  color: red;\n\x7d"] ∧
    (".lumina-btn \x7b\n  color: red;\n\x7d" : String) ∈
      [".lumina-btn \x7b\n  color: red;\n\x7d"] ∧
    ∃ (comps : CompReg) (name : Option String)
      (props : List (String × ASTNode)),
      ASTNode.styleDecl name props ∈
        [ASTNode.styleDecl (some "btn") [("color", .stringLiteral "red")]] ∧
      (".lumina-btn \x7b\n  color: red;\n\x7d" : String) =
        "." ++ ("lumina-" ++ name.getD "default") ++ " \x7b\n" ++
        String.intercalate "\n" (props.map fun p =>
          "  " ++ camelToKebab p.1 ++ ": " ++ genStyleValue comps p.2 ++ ";") ++
        "\n\x7d" :=
  ⟨by decide, by decide, c8_css_rules.2.2.1 ⟨[], [], fun _ => "aaaaa", 0⟩
    [.styleDecl (some "btn") [("color", .stringLiteral "red")]]
    [".lumina-btn \x7b\n  color: red;\n\x7d"]
    ".lumina-btn \x7b\n  color: red;\n\x7d" (by decide) (by decide)⟩

set_option maxRecDepth 100000 in
/-- C8 counterexample: a program whose AST holds one `StyleDecl` (nested
in a component) generates an empty CSS string — the nested rule is lost,
not emitted. -/
theorem c8_nested_style_no_css :
    lexParse "component A() \x7b style s \x7b color: \"red\" \x7d <div/> \x7d" =
      .ok (.program [.componentDecl "A" []
        [.styleDecl (some "s") [("color", .stringLiteral "red")],
         .uiElement "div" [] [] true]]) ∧
    (compile (fun _ => "aaaaa")
        "component A() \x7b style s \x7b color: \"red\" \x7d <div/> \x7d").toOption.map
      GenOut.css = some "" :=
  ⟨by rfl, by decide⟩

-- ── Claim C5 ─────────────────────────────────────────────────────────────

set_option maxHeartbeats 3200000 in
/-- Diagnostics are append-only across the whole mutual checker: every
entry point returns an error list that extends its input list on the
right — no case ever clears, reorders or throws away diagnostics. -/
theorem checkErrsMono (comps : Components) :
    (∀ (n : ASTNode) (env : TypeEnv) (errs : List String),
      ∃ d, (checkNode comps n env errs).2.2 = errs ++ d) ∧
    (∀ (props : List (String × ASTNode)) (acc : List (String × LuminaType))
      (env : TypeEnv) (errs : List String),
      ∃ d, (checkObjProps comps props acc env errs).2.2 = errs ++ d) ∧
    (∀ (compName : String) (compProps : List (String × LuminaType))
      (nodeProps : List (String × ASTNode)) (env : TypeEnv) (errs : List String),
      ∃ d, (checkInstProps comps compName compProps nodeProps env errs).2 =
        errs ++ d) ∧
    (∀ (compName propName : String) (propType : LuminaType)
      (nodeProps : List (String × ASTNode)) (env : TypeEnv) (errs : List String),
      ∃ d, (checkFoundProp comps compName propName propType nodeProps env errs).2 =
        errs ++ d) ∧
    (∀ (i : Nat) (ps : List LuminaType) (args : List ASTNode) (env : TypeEnv)
      (errs : List String),
      ∃ d, (checkCallArgs comps i ps args env errs).2 = errs ++ d) ∧
    (∀ (fname : String) (retTy : Option String) (body : List ASTNode)
      (env : TypeEnv) (errs : List String),
      ∃ d, (checkFnBody comps fname retTy body env errs).2 = errs ++ d) ∧
    (∀ (body : List ASTNode) (env : TypeEnv) (errs : List String),
      ∃ d, (checkNodes comps body env errs).2 = errs ++ d) := by
  apply checkNode.mutual_induct comps
    (fun n env errs => ∃ d, (checkNode comps n env errs).2.2 = errs ++ d)
    (fun props acc env errs =>
      ∃ d, (checkObjProps comps props acc env errs).2.2 = errs ++ d)
    (fun compName compProps nodeProps env errs =>
      ∃ d, (checkInstProps comps compName compProps nodeProps env errs).2 =
        errs ++ d)
    (fun compName propName propType nodeProps env errs =>
      ∃ d, (checkFoundProp comps compName propName propType nodeProps env errs).2 =
        errs ++ d)
    (fun i ps args env errs =>
      ∃ d, (checkCallArgs comps i ps args env errs).2 = errs ++ d)
    (fun fname retTy body env errs =>
      ∃ d, (checkFnBody comps fname retTy body env errs).2 = errs ++ d)
    (fun body env errs => ∃ d, (checkNodes comps body env errs).2 = errs ++ d)
  all_goals (
    try (simp only [])
    intros
    first
    | (refine ⟨[], ?_⟩
       simp [checkNode, checkNodes, checkFnBody, checkCallArgs,
         checkObjProps, checkInstProps, checkFoundProp]
       done)
    | (simp only [checkNode, checkNodes, checkFnBody, checkCallArgs,
         checkObjProps, checkInstProps, checkFoundProp, *]
       try (casesm* Exists _)
       try (simp only [*] at *)
       try subst_vars
       try (split_ifs at *)
       all_goals (
         repeat' (split)
         all_goals (
           try (casesm* Exists _)
           try (simp only [*] at *)
           try subst_vars
           first
           | done
           | (apply Exists.intro
              try simp only [*]
              try simp only [List.append_assoc, List.nil_append]
              first | rfl | assumption | exact (List.append_nil _).symm)))))



/-- C5: `check` is total (the embedding is a function): its success flag
is true exactly when the returned diagnostic list is empty; an undefined
variable appends one diagnostic and yields `Any` instead of halting; every
`checkNode` call only ever appends to the diagnostic list (so no
diagnostic aborts the traversal); and concretely a program with two
undefined identifiers reports both diagnostics, in order. -/
theorem c5_checker_total :
    (∀ (comps : Components) (body : List ASTNode),
      (check comps body).1.success = true ↔ (check comps body).1.errors = []) ∧
    (∀ (comps : Components) (name : String) (env : TypeEnv) (errs : List String),
      env.lookupVar name = none →
      checkNode comps (.identifier name) env errs =
        (.any, env, errs ++ [typeErr ("Undefined variable: " ++ name)])) ∧
    (∀ (comps : Components) (n : ASTNode) (env : TypeEnv) (errs : List String),
      ∃ d, (checkNode comps n env errs).2.2 = errs ++ d) ∧
    checkFresh [.identifier "a", .identifier "b"] =
      ⟨false, [typeErr "Undefined variable: a",
        typeErr "Undefined variable: b"]⟩ := by
  refine ⟨?_, ?_, fun comps n env errs => (checkErrsMono comps).1 n env errs, ?_⟩
  · intro comps body
    unfold check
    rcases h1 : firstPass comps [] body with ⟨c, g⟩
    rcases h2 : checkNodes c body (.mk g none) [] with ⟨env1, errs1⟩
    simp [List.isEmpty_iff]
  · intro comps name env errs h
    simp [checkNode, h]
  · simp [checkFresh, check, firstPass, checkNodes, checkNode,
      TypeEnv.lookupVar, mapGet, typeErr, List.isEmpty]

/-- C5 witness: the undefined-variable equation applied at `x` in the
empty environment. -/
theorem c5_checker_total_witness :
    (TypeEnv.mk [] none).lookupVar "x" = none ∧
    checkNode [] (.identifier "x") (.mk [] none) [] =
      (.any, .mk [] none, [] ++ [typeErr ("Undefined variable: " ++ "x")]) :=
  ⟨rfl, c5_checker_total.2.1 [] "x" (.mk [] none) [] rfl⟩

